import Mathlib

/-!
Verification development for the SecHeto-FL federated-learning server
(`server/src/server.ts` and `server/src/modelQuality.ts`).

Modelling conventions:
* JavaScript numbers (IEEE doubles) are modelled as `ℚ` in the orchestration
  and aggregation layer, so that every definition is executable and concrete
  runs can be checked by `decide`.  The quality formula, which uses
  `Math.exp` and `Math.pow`, is modelled over `ℝ` in a separate section.
* JavaScript objects used as string-keyed maps (`{ [k: string]: T }`) are
  modelled as association lists in insertion order, which matches the
  iteration order of `for … in` over plain string keys.
* `federatedAveragingAll` writes
  `aggregatedWeights[layerName][i].data[j] += weight.data[j] / numClients`.
  When `layerName` is absent from the template, or `i` is out of range, the
  source throws a `TypeError` (property access on `undefined`); this is the
  `Except.error JsError.typeError` case.  A write at `j` beyond the template's
  data length extends the array with `NaN` in the source; `NaN` has no image
  in `ℚ`, so those writes are dropped here, and no theorem below depends on
  that case.
-/

/-- One tensor of a layer: the `LayerWeights` interface of `types.ts`
(`data: number[]; shape: number[]`). -/
structure Tensor where
  data : List ℚ
  shape : List ℕ
deriving DecidableEq

/-- A model update: layer name ↦ list of tensors, in insertion order
(`{ [layer: string]: LayerWeights[] }`). -/
abbrev Update := List (String × List Tensor)

/-- The only runtime error the aggregation code can raise: a property access
on `undefined` (there is no dedicated aggregation error type in the source). -/
inductive JsError where
  | typeError
deriving DecidableEq

/-- The inner loop `for j` of `federatedAveragingAll`: add `c / n` for each
client datum `c` onto the accumulator data.  Positions of the accumulator
beyond the client's length are kept; client positions beyond the
accumulator's length are dropped (`NaN` writes in the source, see header). -/
def addData (n : ℚ) : List ℚ → List ℚ → List ℚ
  | [], bs => bs
  | _ :: _, [] => []
  | c :: cs, b :: bs => (b + c / n) :: addData n cs bs

/-- Whether a list of tensors contains at least one tensor with non-empty
data, i.e. whether the `for i` / `for j` loops of the source would actually
perform a property access on the accumulator. -/
def hasNonemptyTensor (ts : List Tensor) : Bool :=
  ts.any (fun t => !t.data.isEmpty)

/-- The `for i` loop: add the client's tensors onto the accumulator tensors.
A client tensor at an index missing from the accumulator causes a
`TypeError` in the source iff its data is non-empty. -/
def addTensors (n : ℚ) : List Tensor → List Tensor → Except JsError (List Tensor)
  | [], bs => .ok bs
  | t :: ts, [] =>
      if t.data.isEmpty then addTensors n ts [] else .error .typeError
  | t :: ts, b :: bs => do
      let rest ← addTensors n ts bs
      .ok (⟨addData n t.data b.data, b.shape⟩ :: rest)

/-- Add one client layer (name `nm`, tensors `ts`) onto the accumulator
update: find the first entry named `nm` and add tensorwise; if `nm` is
absent, the source throws a `TypeError` iff some tensor has data. -/
def addLayerTo (n : ℚ) (nm : String) (ts : List Tensor) :
    Update → Except JsError Update
  | [] => if hasNonemptyTensor ts then .error .typeError else .ok []
  | (ln, ats) :: rest =>
      if ln = nm then do
        let ats' ← addTensors n ts ats
        .ok ((ln, ats') :: rest)
      else do
        let rest' ← addLayerTo n nm ts rest
        .ok ((ln, ats) :: rest')

/-- The `for layerName in clientWeight` loop: add one whole client update
onto the accumulator. -/
def addClient (n : ℚ) (client : Update) (acc : Update) : Except JsError Update :=
  client.foldlM (fun a p => addLayerTo n p.1 p.2 a) acc

/-- The zero-filled aggregation template built from the first client's
update: same layers, same shapes, data replaced by zeroes of equal length. -/
def mkTemplate (u : Update) : Update :=
  u.map (fun p => (p.1, p.2.map (fun t => ⟨List.replicate t.data.length 0, t.shape⟩)))

/-- `federatedAveragingAll` of `server.ts`: unweighted federated averaging
over every entry of `clientWeights`.  On the empty object the source builds
an empty template and returns `{}` (the `for … in` loops over `undefined`
iterate zero times), hence `.ok []` here. -/
def federatedAveragingAll (clientWeights : List (String × Update)) :
    Except JsError Update :=
  match clientWeights with
  | [] => .ok []
  | (_, first) :: _ =>
      let numClients : ℚ := clientWeights.length
      clientWeights.foldlM (fun acc p => addClient numClients p.2 acc) (mkTemplate first)

/-- The `ModelQualityMetrics` record of `modelQuality.ts`, over `ℚ`. -/
structure QualityRecord where
  clientId : String
  loss : ℚ
  previousLoss : Option ℚ
  lossDifference : Option ℚ
  numData : ℚ
  quality : ℚ
deriving DecidableEq

/-- The arithmetic mean of the recorded qualities
(`metrics.reduce((sum, m) => sum + m.quality, 0) / metrics.length`). -/
def meanQuality (ms : List QualityRecord) : ℚ :=
  (ms.map QualityRecord.quality).sum / ms.length

/-- `ModelQualityCalculator.getSelectedClients`: empty when there are no
records, else the ids of the records whose quality is strictly above the
mean. -/
def getSelectedClients (ms : List QualityRecord) : List String :=
  if ms.length = 0 then []
  else (ms.filter (fun m => meanQuality ms < m.quality)).map QualityRecord.clientId

/-- Association-list lookup keyed by the first component, first match wins
(JS object property read). -/
def lookupA {α : Type} (k : String) : List (String × α) → Option α
  | [] => none
  | (k', v) :: rest => if k' = k then some v else lookupA k rest

/-- `federatedAveraging` of `server.ts` (defined but never called by
`performAggregation`): if the quality selection is empty it falls back to
`federatedAveragingAll` over all clients, otherwise it averages the selected
clients only, skipping selected ids with no entry in `clientWeights`
(`for … in` over `undefined` iterates zero times). -/
def federatedAveraging (metrics : List QualityRecord)
    (clientWeights : List (String × Update)) : Except JsError Update :=
  match getSelectedClients metrics with
  | [] => federatedAveragingAll clientWeights
  | c0 :: _ =>
      let selected := getSelectedClients metrics
      let numSelected : ℚ := selected.length
      let template :=
        match lookupA c0 clientWeights with
        | some first => mkTemplate first
        | none => []
      selected.foldlM (fun acc cid =>
        match lookupA cid clientWeights with
        | some u => addClient numSelected u acc
        | none => .ok acc) template

/-- Association-list update keyed by the first component: replace the first
entry with key `k` in place, else append (JS object property write keeps the
insertion position of an existing key). -/
def setA {α : Type} (k : String) (v : α) : List (String × α) → List (String × α)
  | [] => [(k, v)]
  | (k', v') :: rest => if k' = k then (k, v) :: rest else (k', v') :: setA k v rest

/-- Store or replace a quality record under its client id, keeping the
insertion position (`clientMetrics.set(clientId, …)`). -/
def setMetric (r : QualityRecord) : List QualityRecord → List QualityRecord
  | [] => [r]
  | m :: rest => if m.clientId = r.clientId then r :: rest else m :: setMetric r rest

/-- The `status` field of `ClientInfo`. -/
inductive ClientStatus where
  | idle
  | training
  | aggregating
deriving DecidableEq

/-- One entry of the server's `clients` map (`lastUpdate` models the `Date`
as the model clock value at the update). -/
structure ClientEntry where
  cid : String
  status : ClientStatus
  lastUpdate : ℚ
deriving DecidableEq

/-- Set every registered client's status, keeping id and `lastUpdate`
(`clients.forEach((client, id) => clients.set(id, { …client, status }))`). -/
def setAllStatus (st : ClientStatus) (cs : List ClientEntry) : List ClientEntry :=
  cs.map (fun c => { c with status := st })

/-- One entry of `clientTimingMetrics` (the `timestamp` field of the source
plays no role in any computation and is omitted). -/
structure TimingEntry where
  trainingTime : ℚ
  communicationTime : ℚ
deriving DecidableEq

/-- The two kinds of `setTimeout` callback the server installs: the round
deadline (async rounds) and the 1000 ms delay before the next round start. -/
inductive TimerKind where
  | deadline
  | nextRound
deriving DecidableEq

/-- A pending `setTimeout` callback. -/
structure Timer where
  fireAt : ℚ
  kind : TimerKind
deriving DecidableEq

/-- A `FederatedRound`: the `participants` field of the source is never
written and is omitted. -/
structure RoundState where
  roundId : ℕ
  submissions : List (String × Update)
  aggregated : Option Update
  completed : Bool
deriving DecidableEq

/-- Ghost record written when `performAggregation` passes its entry guard
(mirroring `isAggregating = true` / the `Starting weight aggregation…` log):
the round number, the ids present in the round's submissions map, and the
ids of the currently registered clients. -/
structure AggEntry where
  round : ℕ
  submitted : List String
  registered : List String
deriving DecidableEq

/-- The `ServerConfig` fields that drive the orchestration logic
(`dataset` and `aggregationInterval` influence no modelled transition). -/
structure Config where
  requiredClients : ℕ
  totalRounds : ℕ
  synchronousRounds : ℕ
deriving DecidableEq

/-- The server's mutable orchestration state.  `aggLog` is ghost
instrumentation (see `AggEntry`); every other field is a module-level
variable of `server.ts` or of the `ModelQualityCalculator`. -/
structure State where
  clients : List ClientEntry
  rounds : List RoundState
  currentRound : Option RoundState
  globalModel : Option Update
  currentRoundNumber : ℕ
  isAggregating : Bool
  roundDeadline : Option ℚ
  roundStartTime : Option ℚ
  clientTimingMetrics : List (String × List TimingEntry)
  roundMeanTimes : List (ℕ × ℚ)
  overallMeanTime : ℚ
  clientMetrics : List QualityRecord
  previousRoundMetrics : List (String × ℚ)
  timers : List Timer
  now : ℚ
  aggLog : List AggEntry

/-- The state at server start. -/
def initState : State :=
  { clients := [], rounds := [], currentRound := none, globalModel := none
    currentRoundNumber := 0, isAggregating := false
    roundDeadline := none, roundStartTime := none
    clientTimingMetrics := [], roundMeanTimes := [], overallMeanTime := 0
    clientMetrics := [], previousRoundMetrics := []
    timers := [], now := 0, aggLog := [] }

/-- The registered client ids, in registration order. -/
def clientIds (s : State) : List String :=
  s.clients.map ClientEntry.cid

/-- `shouldUseSynchronousMode`: round `n` is synchronous iff
`n ≤ synchronousRounds`. -/
def shouldUseSynchronousMode (cfg : Config) (s : State) : Bool :=
  s.currentRoundNumber ≤ cfg.synchronousRounds

/-- `haveAllClientsSubmitted`: compares the *count* of submissions with the
*count* of registered clients. -/
def haveAllClientsSubmitted (s : State) : Bool :=
  match s.currentRound with
  | none => false
  | some r => r.submissions.length = s.clients.length

/-- `hasDeadlinePassed`: `roundDeadline !== null && Date.now() >= roundDeadline`. -/
def hasDeadlinePassed (s : State) : Bool :=
  match s.roundDeadline with
  | none => false
  | some d => d ≤ s.now

/-- `shouldStartAggregation`: all clients in synchronous mode; all clients
or deadline in asynchronous mode. -/
def shouldStartAggregation (cfg : Config) (s : State) : Bool :=
  if shouldUseSynchronousMode cfg s then haveAllClientsSubmitted s
  else haveAllClientsSubmitted s || hasDeadlinePassed s

/-- Association-list update keyed by round number, as `setA`. -/
def setRoundMean (k : ℕ) (v : ℚ) : List (ℕ × ℚ) → List (ℕ × ℚ)
  | [] => [(k, v)]
  | (k', v') :: rest => if k' = k then (k, v) :: rest else (k', v') :: setRoundMean k v rest

/-- `calculateAndStoreRoundMeanTime` followed by `calculateOverallMeanTime`:
collect `trainingTime + communicationTime` of entry `roundNumber - 1` from
every client whose timing history has at least `roundNumber` entries; when
non-empty, store the mean for this round and recompute the overall mean of
all stored round means. -/
def calculateAndStoreRoundMeanTime (s : State) (roundNumber : ℕ) : State :=
  let times := s.clientTimingMetrics.filterMap (fun p =>
    if roundNumber ≤ p.2.length then
      (p.2.get? (roundNumber - 1)).map (fun e => e.trainingTime + e.communicationTime)
    else none)
  if times.isEmpty then s
  else
    let mean := times.sum / times.length
    let rmt := setRoundMean roundNumber mean s.roundMeanTimes
    { s with roundMeanTimes := rmt
             overallMeanTime := (rmt.map Prod.snd).sum / rmt.length }

/-- The weights handed to `federatedAveragingAll` by `performAggregation`:
the submissions of the selected clients, in selection order, skipping
selected ids with no stored submission. -/
def selectedSubmissions (metrics : List QualityRecord) (r : RoundState) :
    List (String × Update) :=
  (getSelectedClients metrics).filterMap
    (fun cid => (lookupA cid r.submissions).map (fun w => (cid, w)))

/-- `performAggregation`: guard, round mean time, quality selection,
aggregation over the *selected* submissions via `federatedAveragingAll`
(the fallback in `federatedAveraging` is never invoked by this path).  On
success the round is completed and archived, the global model replaced, all
clients reset to idle, and — if rounds remain — a 1000 ms next-round timer
armed.  A thrown `TypeError` is caught: only `isAggregating` is reset
(the round mean already stored), the global model and round are unchanged. -/
def performAggregation (cfg : Config) (s : State) : State :=
  match s.currentRound with
  | none => s
  | some r =>
      if s.isAggregating then s
      else
        let s₁ := { s with
          aggLog := s.aggLog ++
            [{ round := s.currentRoundNumber
               submitted := r.submissions.map Prod.fst
               registered := clientIds s }] }
        let s₂ := calculateAndStoreRoundMeanTime s₁ s.currentRoundNumber
        match federatedAveragingAll (selectedSubmissions s₂.clientMetrics r) with
        | .error _ => { s₂ with isAggregating := false }
        | .ok agg =>
            { s₂ with
              globalModel := some agg
              rounds := s₂.rounds ++ [{ r with aggregated := some agg, completed := true }]
              currentRound := none
              roundDeadline := none
              roundStartTime := none
              clients := setAllStatus .idle s₂.clients
              isAggregating := false
              timers :=
                if s.currentRoundNumber < cfg.totalRounds then
                  s₂.timers ++ [{ fireAt := s₂.now + 1000, kind := .nextRound }]
                else s₂.timers }

/-- `startNewRound`: refuse when a round is active, too few clients are
registered, all rounds are done, or aggregation is in flight; otherwise
increment the round number, clear the per-round quality records, create a
fresh round, set every client to training, and — in asynchronous mode
only — arm the deadline `max 10000 (min 60000 (overallMeanTime || 30000))`
after now.  (Evaluator re-initialisation is assumed to succeed; its failure
rollback path restores exactly the pre-call state.) -/
def startNewRound (cfg : Config) (s : State) : State :=
  if s.currentRound.isSome ∨ s.clients.length < cfg.requiredClients ∨
      cfg.totalRounds ≤ s.currentRoundNumber ∨ s.isAggregating then s
  else
    let rn := s.currentRoundNumber + 1
    let base := { s with
      currentRoundNumber := rn
      clientMetrics := []
      currentRound := some { roundId := rn, submissions := [], aggregated := none, completed := false }
      clients := setAllStatus .training s.clients
      roundStartTime := some s.now }
    if rn ≤ cfg.synchronousRounds then
      { base with roundDeadline := none }
    else
      let deadlineMs := max 10000 (min 60000 (if s.overallMeanTime = 0 then 30000 else s.overallMeanTime))
      { base with
        roundDeadline := some (s.now + deadlineMs)
        timers := base.timers ++ [{ fireAt := s.now + deadlineMs, kind := .deadline }] }

/-- The externally driven transitions: HTTP handlers and `setTimeout`
callbacks.  Every event carries the wall-clock time `t` at which it is
handled; `submit` additionally carries the evaluator's scalar outputs for
this submission (`loss` from `model.evaluate` on the held-out set, and the
resulting `quality` score) as oracle inputs, since the numerical evaluation
is an external capability.  The quality *formula* itself is modelled
separately over `ℝ` by `computeModelQuality`. -/
inductive Event where
  | register (cid : String) (t : ℚ)
  | poll (cid : String) (t : ℚ)
  | submit (cid : String) (weights : Update) (numData : ℚ) (loss : ℚ) (quality : ℚ)
      (trainingTime : ℚ) (communicationStartTime : ℚ) (t : ℚ)
  | deregister (cid : String) (t : ℚ)
  | fireTimer (i : ℕ) (t : ℚ)

/-- `POST /register`: reject when full; otherwise add the client (the server
always generates a fresh id, so an event re-using a registered id is ignored)
and start round 1 once the required count is reached. -/
def stepRegister (cfg : Config) (s : State) (cid : String) : State :=
  if cfg.requiredClients ≤ s.clients.length then s
  else if cid ∈ clientIds s then s
  else
    let s' := { s with clients := s.clients ++ [{ cid := cid, status := .idle, lastUpdate := s.now }] }
    if s'.clients.length = cfg.requiredClients then startNewRound cfg s' else s'

/-- `GET /round-status`: for a registered client with no active round, the
handler attempts `startNewRound` (whose own guards re-check the
preconditions); no other state changes. -/
def stepPoll (cfg : Config) (s : State) (cid : String) : State :=
  if cid ∈ clientIds s ∧ s.currentRound = none then startNewRound cfg s else s

/-- `DELETE /clients/:clientId`: remove the client from the registry.  An
already-stored submission of that client is *not* removed. -/
def stepDeregister (s : State) (cid : String) : State :=
  { s with clients := s.clients.filter (fun c => c.cid ≠ cid) }

/-- The state right after `POST /submit-weights` stores a valid submission
(timing metrics pushed, `evaluateModel` bookkeeping done, client marked
`aggregating`, weights stored), before the aggregation check. -/
def submitStore (s : State) (cid : String) (weights : Update)
    (numData loss quality trainingTime communicationStartTime : ℚ) (r : RoundState) : State :=
  let communicationTime := s.now - communicationStartTime
  let oldTimings := (lookupA cid s.clientTimingMetrics).getD []
  let prev :=
    match lookupA cid s.previousRoundMetrics with
    | some p => if p = 0 then none else some p
    | none => none
  let qrec : QualityRecord :=
    { clientId := cid, loss := loss, previousLoss := prev
      lossDifference := prev.map (fun p => p - loss)
      numData := numData, quality := quality }
  { s with
    clientTimingMetrics :=
      setA cid (oldTimings ++ [{ trainingTime := trainingTime, communicationTime := communicationTime }])
        s.clientTimingMetrics
    clientMetrics := setMetric qrec s.clientMetrics
    previousRoundMetrics := setA cid loss s.previousRoundMetrics
    clients := s.clients.map (fun c =>
      if c.cid = cid then { c with status := .aggregating, lastUpdate := s.now } else c)
    currentRound := some { r with submissions := r.submissions ++ [(cid, weights)] } }

/-- `POST /submit-weights`: reject unknown clients, missing rounds and
duplicate submissions; otherwise store the submission (`submitStore`) and
aggregate if `shouldStartAggregation`. -/
def stepSubmit (cfg : Config) (s : State) (cid : String) (weights : Update)
    (numData loss quality trainingTime communicationStartTime : ℚ) : State :=
  if cid ∈ clientIds s then
    match s.currentRound with
    | none => s
    | some r =>
        if cid ∈ r.submissions.map Prod.fst then s
        else
          let s' := submitStore s cid weights numData loss quality trainingTime
            communicationStartTime r
          if shouldStartAggregation cfg s' then performAggregation cfg s' else s'
  else s

/-- A `setTimeout` callback fires: only an armed timer whose time has come
can fire; it is consumed, and runs either the deadline callback
(`if (currentRound && !isAggregating) performAggregation()` — exactly the
internal guard of `performAggregation`) or `startNewRound`. -/
def stepFireTimer (cfg : Config) (s : State) (i : ℕ) : State :=
  match s.timers.get? i with
  | none => s
  | some tm =>
      if s.now < tm.fireAt then s
      else
        let s' := { s with timers := s.timers.eraseIdx i }
        match tm.kind with
        | .deadline => performAggregation cfg s'
        | .nextRound => startNewRound cfg s'

/-- Advance the model clock monotonically to the event's time. -/
def withTime (s : State) (t : ℚ) : State :=
  { s with now := max s.now t }

/-- One atomic transition of the server (each handler runs without
interleaving; the suspension points of the source are not modelled). -/
def step (cfg : Config) (s : State) : Event → State
  | .register cid t => stepRegister cfg (withTime s t) cid
  | .poll cid t => stepPoll cfg (withTime s t) cid
  | .submit cid w nd l q tt cst t => stepSubmit cfg (withTime s t) cid w nd l q tt cst
  | .deregister cid t => stepDeregister (withTime s t) cid
  | .fireTimer i t => stepFireTimer cfg (withTime s t) i

/-- Run the server from start on a list of events. -/
def run (cfg : Config) (evs : List Event) : State :=
  evs.foldl (step cfg) initState

/-- `true` iff the trace contains no admin client removal. -/
def noDeregister (evs : List Event) : Bool :=
  evs.all (fun e => match e with | .deregister _ _ => false | _ => true)

/-- `THETA` of `modelQuality.ts`. -/
noncomputable def THETA : ℝ := 0.01

/-- `PHI` of `modelQuality.ts`. -/
noncomputable def PHI : ℝ := 0.5

/-- `ModelQualityCalculator.computeModelQuality` over `ℝ`.  The
`isNaN`/`isFinite` guards on `loss` and on the final score are vacuous in
`ℝ` (every real is finite); the `numData <= 0` guard is kept.
`Math.pow(ratio, PHI)` is real exponentiation (`rpow`); the base
`|loss| * numData` is never negative on the guarded path. -/
noncomputable def computeModelQuality (loss numData : ℝ) : ℝ :=
  if numData ≤ 0 then 0.5
  else
    let calculatedDataQualityRatio := |loss| * numData
    let poweredRatio := calculatedDataQualityRatio ^ PHI
    if 0 < loss then 1 - Real.exp (THETA * poweredRatio)
    else 1 - Real.exp (-THETA * poweredRatio)

/-- The `ModelQualityMetrics` record over `ℝ`. -/
structure QualityRecordR where
  clientId : String
  loss : ℝ
  previousLoss : Option ℝ
  lossDifference : Option ℝ
  numData : ℝ
  quality : ℝ

/-- The two stores of the `ModelQualityCalculator` over `ℝ`:
per-round quality records and the cross-round previous-loss map. -/
structure CalcStateR where
  clientMetricsR : List (String × QualityRecordR)
  previousRoundMetricsR : List (String × ℝ)

/-- Association-list lookup over an arbitrary value type (as `lookupA`,
re-stated for `ℝ`-valued stores to keep this section self-contained). -/
def lookupR {α : Type} (k : String) : List (String × α) → Option α
  | [] => none
  | (k', v) :: rest => if k' = k then some v else lookupR k rest

/-- Association-list write over an arbitrary value type (as `setA`). -/
def setR {α : Type} (k : String) (v : α) : List (String × α) → List (String × α)
  | [] => [(k, v)]
  | (k', v') :: rest => if k' = k then (k, v) :: rest else (k', v') :: setR k v rest

/-- `ModelQualityCalculator.evaluateModel`, given the external evaluation's
`currentLoss` (an oracle: it comes from `model.evaluate` on the held-out
set).  The source reads
`previousLoss = previousRoundMetrics.get(clientId) || null` — JavaScript
`||` coerces a stored previous loss of `0` (and a missing entry) to `null` —
then computes
`lossDifference = previousLoss !== null ? previousLoss - currentLoss : null`
and scores `computeModelQuality(lossDifference || currentLoss, numData)`,
where `||` again falls back to `currentLoss` both when `lossDifference` is
`null` *and* when it is `0`.  Afterwards the metric record is stored and
`previousRoundMetrics` is overwritten with `currentLoss`.  (The `isNaN`
early-return and the `catch` path, which skip the stores, are vacuous /
unmodelled in `ℝ`.) -/
noncomputable def evaluateModel (st : CalcStateR) (clientId : String)
    (currentLoss numData : ℝ) : ℝ × CalcStateR :=
  let previousLoss :=
    match lookupR clientId st.previousRoundMetricsR with
    | some p => if p = 0 then none else some p
    | none => none
  let lossDifference := previousLoss.map (fun p => p - currentLoss)
  let arg :=
    match lossDifference with
    | none => currentLoss
    | some d => if d = 0 then currentLoss else d
  let quality := computeModelQuality arg numData
  (quality,
    { clientMetricsR :=
        setR clientId
          { clientId := clientId, loss := currentLoss, previousLoss := previousLoss
            lossDifference := lossDifference, numData := numData, quality := quality }
          st.clientMetricsR
      previousRoundMetricsR := setR clientId currentLoss st.previousRoundMetricsR })

/-- Modelled from the spec (claim C2's wording), for comparison with
`evaluateModel`: quality `1 - e^{θ·(|Δ|·numData)^φ}` when `Δ > 0`, else
`1 - e^{-θ·(|Δ|·numData)^φ}`, where `Δ = previousLoss - loss` whenever a
previous loss exists and `Δ = loss` otherwise. -/
noncomputable def claimedQualityC2 (previousLoss : Option ℝ) (loss numData : ℝ) : ℝ :=
  let d :=
    match previousLoss with
    | some p => p - loss
    | none => loss
  if 0 < d then 1 - Real.exp (THETA * (|d| * numData) ^ PHI)
  else 1 - Real.exp (-THETA * (|d| * numData) ^ PHI)

/-- The quality formula that `evaluateModel` actually computes (the amended
claim C2), taking the *raw stored* previous loss: as the claimed formula,
except that a stored previous loss of zero counts as absent
(`previousRoundMetrics.get(clientId) || null`), and the loss difference is
replaced by the current loss when the difference is zero
(`lossDifference || currentLoss`) — both JavaScript `||` fallbacks treat
`0` like `null`. -/
noncomputable def actualQualityC2 (previousLoss : Option ℝ) (loss numData : ℝ) : ℝ :=
  let d :=
    match previousLoss with
    | some p => if p = 0 then loss else if p - loss = 0 then loss else p - loss
    | none => loss
  if 0 < d then 1 - Real.exp (THETA * (|d| * numData) ^ PHI)
  else 1 - Real.exp (-THETA * (|d| * numData) ^ PHI)

/-- Modelled from the spec (claim C8's wording), for comparison with
`startNewRound`: deadline `roundStartTime` plus `overallMeanTime` — or
30 000 ms when no round mean has been computed yet — clamped to
`[10000, 60000]`. -/
def specClaimDeadline (meanComputedYet : Bool) (overallMean start : ℚ) : ℚ :=
  start + max 10000 (min 60000 (if meanComputedYet then overallMean else 30000))

/-- Core safety invariant of the orchestration state, maintained by every
transition: registered client ids are pairwise distinct; no client id
appears twice in the current or any archived round's submissions; deadline
timers exist only past the synchronous phase; and every aggregation started
in a synchronous round saw submission and registry counts agree. -/
def InvCore (cfg : Config) (s : State) : Prop :=
  (clientIds s).Nodup ∧
  (∀ r, s.currentRound = some r → (r.submissions.map Prod.fst).Nodup) ∧
  (∀ r ∈ s.rounds, (r.submissions.map Prod.fst).Nodup) ∧
  (∀ tm ∈ s.timers, tm.kind = TimerKind.deadline →
      cfg.synchronousRounds < s.currentRoundNumber) ∧
  (∀ en ∈ s.aggLog, en.round ≤ cfg.synchronousRounds →
      en.submitted.length = en.registered.length)

/-- Additional invariant that holds on runs without admin client removal:
every stored submission belongs to a currently registered client, and every
aggregation started in a synchronous round covered the whole registry. -/
def InvSub (cfg : Config) (s : State) : Prop :=
  (∀ r, s.currentRound = some r → ∀ c ∈ r.submissions.map Prod.fst, c ∈ clientIds s) ∧
  (∀ r ∈ s.rounds, ∀ c ∈ r.submissions.map Prod.fst, c ∈ clientIds s) ∧
  (∀ en ∈ s.aggLog, en.round ≤ cfg.synchronousRounds →
      ∀ c ∈ en.registered, c ∈ en.submitted)

/-- The layer names of the aggregation template: those of the first update
in the mapping (empty template for the empty mapping). -/
def templateNames (cw : List (String × Update)) : List String :=
  match cw with
  | [] => []
  | (_, first) :: _ => first.map Prod.fst

/-- Pointwise scaling of a data list, used to describe the intermediate
accumulator states of `federatedAveragingAll`. -/
def scData (c : ℚ) (l : List ℚ) : List ℚ := l.map (fun x => c * x)

/-- Scaling of a tensor's data, keeping its shape. -/
def scTensor (c : ℚ) (t : Tensor) : Tensor := ⟨scData c t.data, t.shape⟩

/-- Scaling of a layer's tensors. -/
def scLayer (c : ℚ) (ts : List Tensor) : List Tensor := ts.map (scTensor c)

/-- Scaling of every tensor of an update. -/
def scUpdate (c : ℚ) (u : Update) : Update := u.map (fun p => (p.1, scLayer c p.2))

/-- A fixed one-layer, one-tensor update used by the concrete scenarios. -/
def uEx : Update := [("layer_0", [⟨[1], [1]⟩])]

/-- Configuration for the claim C3 scenario. -/
def cfgC3 : Config := ⟨1, 1, 1⟩

/-- State of a round with a single submitter whose quality record is stored:
one registered client, one submission, one quality record of value 1/2. -/
def sC3 : State :=
  { initState with
    clients := [{ cid := "c1", status := .aggregating, lastUpdate := 0 }]
    currentRound := some { roundId := 1, submissions := [("c1", uEx)], aggregated := none, completed := false }
    currentRoundNumber := 1
    clientMetrics := [{ clientId := "c1", loss := 1, previousLoss := none,
                        lossDifference := none, numData := 1, quality := 1/2 }] }

/-- Configuration of the concrete synchronous scenarios: one required
client, two total rounds, one synchronous round. -/
def cfgOne : Config := ⟨1, 2, 1⟩

/-- Concrete run: the single required client registers (round 1 starts in
synchronous mode) and submits; aggregation runs at once. -/
def evsOne : List Event :=
  [.register "c" 0, .submit "c" uEx 1 1 (1/2) 0 0 1]

/-- Configuration with two required clients. -/
def cfgTwo : Config := ⟨2, 10, 1⟩

/-- Concrete run for claim C9's witness: both clients register, one submits. -/
def evsTwoW : List Event :=
  [.register "c1" 0, .register "c2" 0, .submit "c1" uEx 1 1 (1/2) 0 0 1]

/-- Concrete run refuting claim C9: `c1` submits and is then removed by the
admin endpoint; `c2`'s submission brings the submissions map to two entries
while only one client remains registered. -/
def evsTwoX : List Event :=
  [.register "c1" 0, .register "c2" 0,
   .submit "c1" uEx 1 1 (1/2) 0 0 1,
   .deregister "c1" 2,
   .submit "c2" uEx 1 1 (1/2) 0 0 3]

/-- Configuration with three required clients. -/
def cfgThree : Config := ⟨3, 10, 1⟩

/-- Concrete run refuting claim C7: in synchronous round 1, `c1` submits and
is removed; `c2`'s submission makes the submission *count* match the
registry *count* (2 = 2), so aggregation is triggered although registered
client `c3` never submitted. -/
def evsThreeX : List Event :=
  [.register "c1" 0, .register "c2" 0, .register "c3" 0,
   .submit "c1" uEx 1 1 (1/2) 0 0 1,
   .deregister "c1" 2,
   .submit "c2" uEx 1 1 (1/2) 0 0 3]

/-- Concrete run refuting claim C8: the sole client's recorded round time is
zero, so a round mean of `0` *is* computed and `overallMeanTime = 0`; when
the asynchronous round 2 starts (via the next-round timer at 1005), the
armed deadline uses the 30 000 ms default (`overallMeanTime || 30000`), not
the claimed `clamp(overallMeanTime)`. -/
def evsAsyncX : List Event :=
  [.register "c" 0,
   .submit "c" uEx 1 1 (1/2) 0 5 5,
   .fireTimer 0 1005]

/-- A state with one idle registered client and no round, used to witness
the asynchronous deadline arming (synchronous phase of length zero). -/
def sAsyncW : State := { initState with clients := [{ cid := "c", status := .idle, lastUpdate := 0 }] }

/-- Configuration with no synchronous rounds, for the deadline witness. -/
def cfgAsyncW : Config := ⟨1, 2, 0⟩

/-- Reduction of the `Except` monad bind on a success value, used when
evaluating the aggregation code on concrete inputs. -/
theorem except_ok_bind {α β : Type} (a : α) (f : α → Except JsError β) :
    (Except.ok a >>= f) = f a := rfl

/-- Reduction of the `Except` monad bind on an error value. -/
theorem except_error_bind {α β : Type} (e : JsError) (f : α → Except JsError β) :
    ((Except.error e : Except JsError α) >>= f) = Except.error e := rfl

/-- Claim C4 (counterexample): `federatedAveragingAll` applied to the empty
mapping does not fail — there is no `EmptyAggregationSet` error in the code;
the call succeeds. -/
theorem C4_counterexample :
    federatedAveragingAll ([] : List (String × Update)) ≠ .error .typeError := by
  simp [federatedAveragingAll]

/-- Claim C4 (amended): `federatedAveragingAll` applied to the empty mapping
returns the empty model update (`{}`), silently: the `for … in` loops over
`undefined` iterate zero times and the zero-initialised template is empty. -/
theorem C4_empty_input_returns_empty_update :
    federatedAveragingAll ([] : List (String × Update)) = .ok [] := rfl

/-- Claim C3 (code bug exhibit): in a round with a single submitter, the
quality selection is empty (no record is strictly above the mean of itself),
and `performAggregation` — which calls `federatedAveragingAll` on the
*filtered* selected weights, never the fallback — installs the *empty*
update as the new global model; the federated average of all submitters
(which `federatedAveraging`, the unused fallback, would have returned) is
the submitted update itself, and they differ. -/
theorem C3_empty_selection_empty_global_model :
    getSelectedClients sC3.clientMetrics = [] ∧
    sC3.currentRound.map (fun r => r.submissions.length) = some 1 ∧
    (performAggregation cfgC3 sC3).globalModel = some [] ∧
    federatedAveragingAll [("c1", uEx)] = .ok uEx ∧
    federatedAveraging sC3.clientMetrics [("c1", uEx)] = .ok uEx ∧
    some ([] : Update) ≠ some uEx := by
  refine ⟨?_, rfl, ?_, ?_, ?_, by simp [uEx]⟩
  · norm_num [sC3, getSelectedClients, meanQuality, initState]
  · norm_num [performAggregation, sC3, cfgC3, initState, calculateAndStoreRoundMeanTime,
      selectedSubmissions, getSelectedClients, meanQuality, lookupA,
      federatedAveragingAll, setRoundMean, clientIds]
  · norm_num [federatedAveragingAll, uEx, addClient, addLayerTo, addTensors, addData,
      mkTemplate, hasNonemptyTensor, except_ok_bind]
  · norm_num [federatedAveraging, federatedAveragingAll, sC3, initState, getSelectedClients,
      meanQuality, uEx, addClient, addLayerTo, addTensors, addData, mkTemplate,
      hasNonemptyTensor, lookupA, except_ok_bind]

/-- Claim C5 (counterexample): two updates whose single-layer tensors have
different shapes (`[2]` with data `[1, 1]` versus `[1]` with data `[3]`) are
averaged *successfully* — positionwise against the first update's template —
instead of failing with a `ShapeMismatch` error; no shape validation exists. -/
theorem C5_counterexample :
    (([⟨[1, 1], [2]⟩] : List Tensor) ≠ [⟨[3], [1]⟩]) ∧
    federatedAveragingAll
        [("A", [("l0", [⟨[1, 1], [2]⟩])]), ("B", [("l0", [⟨[3], [1]⟩])])] =
      .ok [("l0", [⟨[2, 1/2], [2]⟩])] := by
  constructor
  · simp
  · norm_num [federatedAveragingAll, addClient, addLayerTo, addTensors, addData,
      mkTemplate, hasNonemptyTensor, except_ok_bind]

theorem scData_zero (l : List ℚ) : scData 0 l = List.replicate l.length 0 := by
  induction l with
  | nil => rfl
  | cons x xs ih => simp only [scData, List.map_cons, List.length_cons, List.replicate,
      zero_mul] at ih ⊢ ; rw [ih]

theorem scData_one (l : List ℚ) : scData 1 l = l := by
  simp [scData]

theorem scTensor_one (t : Tensor) : scTensor 1 t = t := by
  cases t
  simp [scTensor, scData_one]

theorem scLayer_one (ts : List Tensor) : scLayer 1 ts = ts := by
  unfold scLayer
  rw [List.map_congr_left (fun t _ => scTensor_one t)]
  exact List.map_id ts

theorem scUpdate_one (u : Update) : scUpdate 1 u = u := by
  simp [scUpdate, scLayer_one]

theorem mkTemplate_eq_scUpdate_zero (u : Update) : mkTemplate u = scUpdate 0 u := by
  unfold mkTemplate scUpdate
  refine List.map_congr_left (fun p _ => ?_)
  refine congrArg (fun ts => (p.1, ts)) ?_
  unfold scLayer
  refine List.map_congr_left (fun t _ => ?_)
  unfold scTensor
  rw [scData_zero]

theorem addData_sc (n c : ℚ) (d : List ℚ) :
    addData n d (scData c d) = scData (c + 1 / n) d := by
  induction d with
  | nil => rfl
  | cons x xs ih =>
      simp only [scData, List.map_cons] at ih ⊢
      rw [addData, ih]
      congr 1
      ring

theorem addTensors_sc (n c : ℚ) (ts : List Tensor) :
    addTensors n ts (scLayer c ts) = .ok (scLayer (c + 1 / n) ts) := by
  induction ts with
  | nil => rfl
  | cons t rest ih =>
      simp only [scLayer, List.map_cons] at ih ⊢
      rw [addTensors, ih, except_ok_bind]
      simp [scTensor, addData_sc]

theorem addLayerTo_middle (n : ℚ) (nm : String) (ts : List Tensor)
    (A B : Update) (ats ats' : List Tensor)
    (hA : nm ∉ A.map Prod.fst) (h : addTensors n ts ats = .ok ats') :
    addLayerTo n nm ts (A ++ (nm, ats) :: B) = .ok (A ++ (nm, ats') :: B) := by
  induction A with
  | nil => simp [addLayerTo, h, except_ok_bind]
  | cons p rest ih =>
      obtain ⟨ln, lts⟩ := p
      simp only [List.map_cons, List.mem_cons, not_or] at hA
      simp [addLayerTo, hA.1, Ne.symm hA.1, ih hA.2, except_ok_bind]

theorem scUpdate_cons (c : ℚ) (nm : String) (ts : List Tensor) (r : Update) :
    scUpdate c ((nm, ts) :: r) = (nm, scLayer c ts) :: scUpdate c r := rfl

theorem foldlM_addLayer_sc (n : ℚ) :
    ∀ (rest : Update) (A : Update) (c : ℚ),
      (∀ nm ∈ rest.map Prod.fst, nm ∉ A.map Prod.fst) → (rest.map Prod.fst).Nodup →
      List.foldlM (fun a p => addLayerTo n p.1 p.2 a) (A ++ scUpdate c rest) rest
        = .ok (A ++ scUpdate (c + 1 / n) rest)
  | [], A, c, _, _ => by
      simp only [scUpdate, List.map_nil, List.append_nil, List.foldlM_nil]
      rfl
  | (nm, ts) :: rest', A, c, hA, hnd => by
      have hAhead : nm ∉ A.map Prod.fst := hA nm (by simp)
      have hAtail : ∀ nm' ∈ rest'.map Prod.fst, nm' ∉ A.map Prod.fst :=
        fun nm' h => hA nm' (by simp [h])
      have hnd' : (nm :: rest'.map Prod.fst).Nodup := by simpa using hnd
      have hndhead : nm ∉ rest'.map Prod.fst := (List.nodup_cons.mp hnd').1
      have hndtail : (rest'.map Prod.fst).Nodup := (List.nodup_cons.mp hnd').2
      have hstep := addLayerTo_middle n nm ts A (scUpdate c rest')
        (scLayer c ts) (scLayer (c + 1 / n) ts) hAhead (addTensors_sc n c ts)
      have hA' : ∀ nm' ∈ rest'.map Prod.fst,
          nm' ∉ (A ++ [(nm, scLayer (c + 1 / n) ts)]).map Prod.fst := by
        intro nm' h
        simp only [List.map_append, List.mem_append, List.map_cons, List.map_nil,
          List.mem_singleton, not_or]
        exact ⟨hAtail nm' h, fun he => hndhead (he ▸ h)⟩
      have ih := foldlM_addLayer_sc n rest' (A ++ [(nm, scLayer (c + 1 / n) ts)]) c hA' hndtail
      rw [scUpdate_cons, scUpdate_cons, List.foldlM_cons, hstep, except_ok_bind,
        List.append_cons A (nm, scLayer (c + 1 / n) ts) (scUpdate c rest'), ih,
        ← List.append_cons]

theorem addClient_sc (n c : ℚ) (u : Update) (hnd : (u.map Prod.fst).Nodup) :
    addClient n u (scUpdate c u) = .ok (scUpdate (c + 1 / n) u) := by
  have := foldlM_addLayer_sc n u [] c (by simp) hnd
  simpa [addClient] using this

theorem foldlM_addClient_sc (n : ℚ) (u : Update) (hnd : (u.map Prod.fst).Nodup) :
    ∀ (l : List (String × Update)) (c : ℚ), (∀ p ∈ l, p.2 = u) →
      List.foldlM (fun acc p => addClient n p.2 acc) (scUpdate c u) l
        = .ok (scUpdate (c + l.length / n) u)
  | [], c, _ => by
      simp only [List.foldlM_nil, List.length_nil, Nat.cast_zero, zero_div, add_zero]
      rfl
  | p :: l', c, hall => by
      have hp : p.2 = u := hall p (by simp)
      have ih := foldlM_addClient_sc n u hnd l' (c + 1 / n) (fun q hq => hall q (by simp [hq]))
      rw [List.foldlM_cons, hp, addClient_sc n c u hnd, except_ok_bind, ih]
      have harith : c + 1 / n + (l'.length : ℚ) / n = c + (((l' : List (String × Update)).length + 1 : ℕ) : ℚ) / n := by
        push_cast
        ring
      rw [harith]
      simp

/-- Claim C6: `federatedAveragingAll` applied to a mapping of `k ≥ 1` clients
all submitting one identical update `u` returns `u` unchanged.  (The layer
names of an update are pairwise distinct, as keys of a JavaScript object.) -/
theorem C6_uniform_updates_idempotent (k : ℕ) (ids : List String) (u : Update)
    (hk : 1 ≤ k) (hlen : ids.length = k) (hnd : (u.map Prod.fst).Nodup) :
    federatedAveragingAll (ids.map (fun i => (i, u))) = .ok u := by
  cases ids with
  | nil =>
      exfalso
      simp only [List.length_nil] at hlen
      omega
  | cons i0 rest =>
      have hall : ∀ p ∈ (i0, u) :: rest.map (fun i => (i, u)), p.2 = u := by
        intro p hp
        rcases List.mem_cons.mp hp with h | h
        · rw [h]
        · obtain ⟨i, _, rfl⟩ := List.mem_map.mp h
          rfl
      have hlen' : (((i0, u) :: rest.map fun i => (i, u)).length : ℚ) = (k : ℚ) := by
        simp only [List.length_cons, List.length_map]
        exact_mod_cast by simpa using hlen
      simp only [federatedAveragingAll, List.map_cons]
      rw [mkTemplate_eq_scUpdate_zero, foldlM_addClient_sc _ u hnd _ 0 hall]
      have hk0 : ((k : ℚ)) ≠ 0 := Nat.cast_ne_zero.mpr (by omega)
      rw [show (0 : ℚ) + (((i0, u) :: rest.map fun i => (i, u)).length : ℚ) /
            (((i0, u) :: rest.map fun i => (i, u)).length : ℚ) = 1 by
        rw [hlen', div_self hk0] ; ring]
      rw [scUpdate_one]

theorem mkTemplate_names (u : Update) :
    (mkTemplate u).map Prod.fst = u.map Prod.fst := by
  simp [mkTemplate]

theorem calc_clientMetrics (s : State) (rn : ℕ) :
    (calculateAndStoreRoundMeanTime s rn).clientMetrics = s.clientMetrics := by
  unfold calculateAndStoreRoundMeanTime
  dsimp only
  split <;> rfl

theorem calc_globalModel (s : State) (rn : ℕ) :
    (calculateAndStoreRoundMeanTime s rn).globalModel = s.globalModel := by
  unfold calculateAndStoreRoundMeanTime
  dsimp only
  split <;> rfl

theorem calc_currentRound (s : State) (rn : ℕ) :
    (calculateAndStoreRoundMeanTime s rn).currentRound = s.currentRound := by
  unfold calculateAndStoreRoundMeanTime
  dsimp only
  split <;> rfl

theorem calc_rounds (s : State) (rn : ℕ) :
    (calculateAndStoreRoundMeanTime s rn).rounds = s.rounds := by
  unfold calculateAndStoreRoundMeanTime
  dsimp only
  split <;> rfl

theorem calc_clients (s : State) (rn : ℕ) :
    (calculateAndStoreRoundMeanTime s rn).clients = s.clients := by
  unfold calculateAndStoreRoundMeanTime
  dsimp only
  split <;> rfl

theorem calc_timers (s : State) (rn : ℕ) :
    (calculateAndStoreRoundMeanTime s rn).timers = s.timers := by
  unfold calculateAndStoreRoundMeanTime
  dsimp only
  split <;> rfl

theorem calc_currentRoundNumber (s : State) (rn : ℕ) :
    (calculateAndStoreRoundMeanTime s rn).currentRoundNumber = s.currentRoundNumber := by
  unfold calculateAndStoreRoundMeanTime
  dsimp only
  split <;> rfl

theorem calc_aggLog (s : State) (rn : ℕ) :
    (calculateAndStoreRoundMeanTime s rn).aggLog = s.aggLog := by
  unfold calculateAndStoreRoundMeanTime
  dsimp only
  split <;> rfl

theorem calc_now (s : State) (rn : ℕ) :
    (calculateAndStoreRoundMeanTime s rn).now = s.now := by
  unfold calculateAndStoreRoundMeanTime
  dsimp only
  split <;> rfl

theorem addLayerTo_ok_names (n : ℚ) (nm : String) (ts : List Tensor) :
    ∀ (acc acc' : Update), addLayerTo n nm ts acc = .ok acc' →
      acc'.map Prod.fst = acc.map Prod.fst ∧
      (hasNonemptyTensor ts = true → nm ∈ acc.map Prod.fst)
  | [], acc', h => by
      by_cases hne : hasNonemptyTensor ts
      · simp [addLayerTo, hne] at h
      · simp only [addLayerTo, hne, if_false, Bool.false_eq_true] at h ⊢
        cases h
        simp [hne]
  | (ln, ats) :: rest, acc', h => by
      by_cases hln : ln = nm
      · subst hln
        simp only [addLayerTo, if_true] at h
        cases hats : addTensors n ts ats with
        | error e => rw [hats, except_error_bind] at h; cases h
        | ok ats' =>
            rw [hats, except_ok_bind] at h
            cases h
            simp
      · simp only [addLayerTo, hln, if_false] at h
        cases hrest : addLayerTo n nm ts rest with
        | error e => rw [hrest, except_error_bind] at h; cases h
        | ok rest' =>
            rw [hrest, except_ok_bind] at h
            cases h
            have ih := addLayerTo_ok_names n nm ts rest rest' hrest
            simp only [List.map_cons, ih.1, List.mem_cons, true_and]
            exact fun hne => Or.inr (ih.2 hne)

theorem addClient_ok_names (n : ℚ) :
    ∀ (u : Update) (acc acc' : Update), addClient n u acc = .ok acc' →
      acc'.map Prod.fst = acc.map Prod.fst ∧
      (∀ nm ts, (nm, ts) ∈ u → hasNonemptyTensor ts = true → nm ∈ acc.map Prod.fst)
  | [], acc, acc', h => by
      simp only [addClient, List.foldlM_nil] at h
      cases h
      exact ⟨rfl, by simp⟩
  | (nm₀, ts₀) :: u', acc, acc', h => by
      simp only [addClient, List.foldlM_cons] at h
      cases h₀ : addLayerTo n nm₀ ts₀ acc with
      | error e => rw [h₀, except_error_bind] at h; cases h
      | ok a₁ =>
          rw [h₀, except_ok_bind] at h
          have ih := addClient_ok_names n u' a₁ acc' h
          have hl := addLayerTo_ok_names n nm₀ ts₀ acc a₁ h₀
          refine ⟨ih.1.trans hl.1, ?_⟩
          intro nm ts hmem hne
          rcases List.mem_cons.mp hmem with heq | htail
          · cases heq
            exact hl.2 hne
          · exact hl.1 ▸ ih.2 nm ts htail hne

theorem foldlM_clients_ok_names (n : ℚ) :
    ∀ (l : List (String × Update)) (acc : Update) (v : Update),
      List.foldlM (fun acc p => addClient n p.2 acc) acc l = .ok v →
      ∀ cid u, (cid, u) ∈ l → ∀ nm ts, (nm, ts) ∈ u →
        hasNonemptyTensor ts = true → nm ∈ acc.map Prod.fst
  | [], acc, v, _, cid, u, hmem => by cases hmem
  | p :: l', acc, v, h, cid, u, hmem => by
      simp only [List.foldlM_cons] at h
      cases h₀ : addClient n p.2 acc with
      | error e => rw [h₀, except_error_bind] at h; cases h
      | ok a₁ =>
          rw [h₀, except_ok_bind] at h
          have hc := addClient_ok_names n p.2 acc a₁ h₀
          rcases List.mem_cons.mp hmem with heq | htail
          · subst heq
            intro nm ts hts hne
            exact hc.2 nm ts hts hne
          · intro nm ts hts hne
            exact hc.1 ▸ foldlM_clients_ok_names n l' a₁ v h cid u htail nm ts hts hne

/-- Claim C5 (amended): there is no `ShapeMismatch` check.  (1) An input
whose update contains a layer (with tensor data) absent from the first
update's template makes `federatedAveragingAll` throw a generic `TypeError`
(a property access on `undefined`), the only failure the code can produce;
(2) `performAggregation` catches any such error and the global model, the
current round and the archived rounds are left unchanged.  Mismatches that
stay within the template's positions are silently averaged without any
failure (see the counterexample). -/
theorem C5_no_shape_check_amended :
    (∀ (cw : List (String × Update)) (cid : String) (u : Update) (nm : String)
        (ts : List Tensor), (cid, u) ∈ cw → (nm, ts) ∈ u →
        hasNonemptyTensor ts = true → nm ∉ templateNames cw →
        federatedAveragingAll cw = .error .typeError) ∧
    (∀ (cfg : Config) (s : State) (r : RoundState) (e : JsError),
        s.currentRound = some r →
        federatedAveragingAll (selectedSubmissions s.clientMetrics r) = .error e →
        (performAggregation cfg s).globalModel = s.globalModel ∧
        (performAggregation cfg s).currentRound = s.currentRound ∧
        (performAggregation cfg s).rounds = s.rounds) := by
  constructor
  · intro cw cid u nm ts hcw hu hne hnm
    match cw, hcw with
    | (c₀, first) :: rest, hcw =>
        cases hres : federatedAveragingAll ((c₀, first) :: rest) with
        | ok v =>
            exfalso
            simp only [federatedAveragingAll] at hres
            have := foldlM_clients_ok_names _ _ _ _ hres cid u hcw nm ts hu hne
            rw [mkTemplate_names] at this
            exact hnm (by simpa [templateNames] using this)
        | error e => cases e; rfl
  · intro cfg s r e hr herr
    unfold performAggregation
    rw [hr]
    dsimp only
    by_cases hagg : s.isAggregating
    · rw [if_pos hagg]
      exact ⟨rfl, hr, rfl⟩
    · rw [if_neg hagg]
      rw [calc_clientMetrics]
      dsimp only
      rw [herr]
      dsimp only
      rw [calc_globalModel, calc_currentRound, calc_rounds]
      exact ⟨rfl, rfl, rfl⟩

/-- Witness for the amended claim C5: a second client whose only layer `l1`
is absent from the first client's template triggers the `TypeError`. -/
theorem C5_witness :
    federatedAveragingAll
        [("a", [("l0", [⟨[1], [1]⟩])]), ("b", [("l1", [⟨[2], [1]⟩])])] =
      .error .typeError :=
  C5_no_shape_check_amended.1 _ "b" [("l1", [⟨[2], [1]⟩])] "l1" [⟨[2], [1]⟩]
    (by simp) (by simp) (by rfl) (by simp [templateNames])

/-- Witness for claim C6: two clients submitting the same one-layer update
get exactly that update back. -/
theorem C6_witness :
    federatedAveragingAll [("a", uEx), ("b", uEx)] = .ok uEx :=
  C6_uniform_updates_idempotent 2 ["a", "b"] uEx (by norm_num) rfl (by simp [uEx])

theorem meanQuality_all_eq (ms : List QualityRecord) (q : ℚ)
    (h : ∀ m ∈ ms, m.quality = q) (hne : ms ≠ []) : meanQuality ms = q := by
  have hmap : ms.map QualityRecord.quality = List.replicate ms.length q := by
    rw [List.map_congr_left (fun m hm => h m hm)]
    exact List.map_const' ms q
  have hlen : ((ms.length : ℚ)) ≠ 0 :=
    Nat.cast_ne_zero.mpr (List.length_pos.mpr hne).ne'
  rw [meanQuality, hmap, List.sum_replicate, nsmul_eq_mul, mul_comm,
    mul_div_assoc, div_self hlen, mul_one]

/-- Claim C1: `getSelectedClients` returns exactly the recorded clients whose
quality is strictly greater than the arithmetic mean of all recorded
qualities; it returns the empty list on the empty record set, and the empty
list whenever all recorded qualities are equal (nothing is strictly above
the mean). -/
theorem C1_selected_strictly_above_mean :
    (∀ (ms : List QualityRecord) (cid : String),
        cid ∈ getSelectedClients ms ↔
          ∃ m, m ∈ ms ∧ m.clientId = cid ∧ meanQuality ms < m.quality) ∧
    getSelectedClients [] = [] ∧
    (∀ (ms : List QualityRecord) (q : ℚ), (∀ m ∈ ms, m.quality = q) →
        getSelectedClients ms = []) := by
  refine ⟨?_, rfl, ?_⟩
  · intro ms cid
    by_cases hlen : ms.length = 0
    · rw [List.length_eq_zero] at hlen
      subst hlen
      simp [getSelectedClients]
    · simp only [getSelectedClients, hlen, if_false, List.mem_map, List.mem_filter,
        decide_eq_true_eq]
      constructor
      · rintro ⟨m, ⟨hmem, hq⟩, hid⟩
        exact ⟨m, hmem, hid, hq⟩
      · rintro ⟨m, hmem, hid, hq⟩
        exact ⟨m, ⟨hmem, hq⟩, hid⟩
  · intro ms q h
    by_cases hlen : ms.length = 0
    · rw [List.length_eq_zero] at hlen
      subst hlen
      rfl
    · have hne : ms ≠ [] := fun he => hlen (he ▸ rfl)
      have hmean := meanQuality_all_eq ms q h hne
      simp only [getSelectedClients, hlen, if_false, List.map_eq_nil_iff]
      rw [List.filter_eq_nil_iff]
      intro m hm
      simp only [decide_eq_true_eq, not_lt]
      rw [hmean, h m hm]

/-- Witness for claim C1 (third conjunct): two records of equal quality
produce an empty selection. -/
theorem C1_witness :
    getSelectedClients
      [{ clientId := "a", loss := 1, previousLoss := none, lossDifference := none,
         numData := 1, quality := 1/2 },
       { clientId := "b", loss := 2, previousLoss := none, lossDifference := none,
         numData := 1, quality := 1/2 }] = [] :=
  C1_selected_strictly_above_mean.2.2 _ (1/2) (by
    intro m hm
    rcases List.mem_cons.mp hm with h | h
    · rw [h]
    · rcases List.mem_cons.mp h with h' | h'
      · rw [h']
      · cases h')

theorem lookupR_setR_self {α : Type} (k : String) (v : α) :
    ∀ l : List (String × α), lookupR k (setR k v l) = some v
  | [] => by simp [setR, lookupR]
  | (k', v') :: rest => by
      by_cases h : k' = k
      · simp [setR, lookupR, h]
      · simp only [setR, lookupR, h, if_false]
        exact lookupR_setR_self k v rest

theorem computeModelQuality_pos_branch (L N : ℝ) (hN : 0 < N) (hL : 0 < L) :
    computeModelQuality L N = 1 - Real.exp (THETA * (|L| * N) ^ PHI) := by
  unfold computeModelQuality
  rw [if_neg (not_le.mpr hN)]
  dsimp only
  rw [if_pos hL]

theorem computeModelQuality_nonpos_branch (L N : ℝ) (hN : 0 < N) (hL : ¬ 0 < L) :
    computeModelQuality L N = 1 - Real.exp (-THETA * (|L| * N) ^ PHI) := by
  unfold computeModelQuality
  rw [if_neg (not_le.mpr hN)]
  dsimp only
  rw [if_neg hL]

/-- Claim C2 (amended): for a positive sample count, the quality returned by
`evaluateModel` follows the claimed exponential formula with the difference
`previousLoss - loss` — *except* that a stored previous loss of zero counts
as absent (`previousRoundMetrics.get(clientId) || null`), and whenever the
difference is zero (or there is no previous loss) the current loss takes
its place (`computeModelQuality(lossDifference || currentLoss, numData)`);
both JavaScript `||` fallbacks treat `0` as falsy.  Afterwards the stored
previous loss is overwritten with the current loss. -/
theorem C2_quality_formula_amended (st : CalcStateR) (cid : String)
    (prev : Option ℝ) (loss numData : ℝ) (hnum : 0 < numData)
    (hprev : lookupR cid st.previousRoundMetricsR = prev) :
    (evaluateModel st cid loss numData).1 = actualQualityC2 prev loss numData ∧
    lookupR cid (evaluateModel st cid loss numData).2.previousRoundMetricsR = some loss := by
  constructor
  · show computeModelQuality _ _ = _
    rw [hprev]
    unfold actualQualityC2
    cases prev with
    | none =>
        dsimp only [Option.map_none']
        by_cases hd : 0 < loss
        · rw [computeModelQuality_pos_branch _ _ hnum hd, if_pos hd]
        · rw [computeModelQuality_nonpos_branch _ _ hnum hd, if_neg hd]
    | some p =>
        dsimp only
        by_cases hp : p = 0
        · rw [if_pos hp, if_pos hp]
          dsimp only [Option.map_none']
          by_cases hd : 0 < loss
          · rw [computeModelQuality_pos_branch _ _ hnum hd, if_pos hd]
          · rw [computeModelQuality_nonpos_branch _ _ hnum hd, if_neg hd]
        · rw [if_neg hp, if_neg hp]
          dsimp only [Option.map_some']
          by_cases h0 : p - loss = 0
          · rw [if_pos h0]
            by_cases hd : 0 < loss
            · rw [computeModelQuality_pos_branch _ _ hnum hd, if_pos hd]
            · rw [computeModelQuality_nonpos_branch _ _ hnum hd, if_neg hd]
          · rw [if_neg h0]
            by_cases hd : 0 < p - loss
            · rw [computeModelQuality_pos_branch _ _ hnum hd, if_pos hd]
            · rw [computeModelQuality_nonpos_branch _ _ hnum hd, if_neg hd]
  · show lookupR cid (setR cid loss st.previousRoundMetricsR) = some loss
    exact lookupR_setR_self cid loss st.previousRoundMetricsR

/-- Claim C2 (counterexample), two instances.  First, a client whose stored
previous loss `1` equals its current loss `1` (so `Δ = 0`): the claim's
formula gives quality `1 - e⁰ = 0`, but `evaluateModel` computes
`1 - e^{0.01·(1·1)^0.5} ≠ 0`, because `lossDifference || currentLoss`
replaces the zero difference by the current loss.  Second, a client whose
stored previous loss is `0` with current loss `2`: the claim's `Δ = 0 - 2`
lands in the negative branch `1 - e^{-0.01·2^0.5}`, but
`previousRoundMetrics.get(clientId) || null` coerces the stored `0` to
`null`, so `evaluateModel` scores the current loss `2` in the *positive*
branch `1 - e^{0.01·2^0.5}`. -/
theorem C2_counterexample :
    (lookupR "c" (CalcStateR.mk [] [("c", 1)]).previousRoundMetricsR = some 1 ∧
      (evaluateModel (CalcStateR.mk [] [("c", 1)]) "c" 1 1).1 ≠
        claimedQualityC2 (some 1) 1 1) ∧
    (lookupR "c" (CalcStateR.mk [] [("c", 0)]).previousRoundMetricsR = some 0 ∧
      (evaluateModel (CalcStateR.mk [] [("c", 0)]) "c" 2 1).1 ≠
        claimedQualityC2 (some 0) 2 1) := by
  constructor
  · have hlook : lookupR "c" [(("c" : String), (1 : ℝ))] = some 1 := by
      simp [lookupR]
    refine ⟨hlook, ?_⟩
    have hL : (evaluateModel (CalcStateR.mk [] [("c", 1)]) "c" 1 1).1 =
        1 - Real.exp (THETA * 1) := by
      show computeModelQuality _ _ = _
      rw [show lookupR "c" (CalcStateR.mk [] [("c", 1)]).previousRoundMetricsR = some 1 from hlook]
      norm_num
      rw [computeModelQuality_pos_branch 1 1 one_pos one_pos]
      norm_num
    have hR : claimedQualityC2 (some 1) 1 1 = 0 := by
      unfold claimedQualityC2
      norm_num
      rw [Real.zero_rpow (by norm_num [PHI] : PHI ≠ 0)]
      simp
    rw [hL, hR]
    intro h
    have hexp : Real.exp (THETA * 1) = 1 := by linarith
    rw [Real.exp_eq_one_iff] at hexp
    rw [mul_one] at hexp
    exact absurd hexp (by norm_num [THETA])
  · have hlook : lookupR "c" [(("c" : String), (0 : ℝ))] = some 0 := by
      simp [lookupR]
    refine ⟨hlook, ?_⟩
    have hL : (evaluateModel (CalcStateR.mk [] [("c", 0)]) "c" 2 1).1 =
        1 - Real.exp (THETA * (2 : ℝ) ^ PHI) := by
      show computeModelQuality _ _ = _
      rw [show lookupR "c" (CalcStateR.mk [] [("c", 0)]).previousRoundMetricsR = some 0 from hlook]
      norm_num
      rw [computeModelQuality_pos_branch 2 1 one_pos two_pos]
      norm_num
    have hR : claimedQualityC2 (some 0) 2 1 =
        1 - Real.exp (-THETA * (2 : ℝ) ^ PHI) := by
      unfold claimedQualityC2
      norm_num
    rw [hL, hR]
    intro h
    have hexp : Real.exp (THETA * (2 : ℝ) ^ PHI) = Real.exp (-THETA * (2 : ℝ) ^ PHI) := by
      linarith
    rw [Real.exp_eq_exp] at hexp
    have hpos : 0 < THETA * (2 : ℝ) ^ PHI :=
      mul_pos (by norm_num [THETA]) (Real.rpow_pos_of_pos two_pos PHI)
    have : -THETA * (2 : ℝ) ^ PHI = -(THETA * (2 : ℝ) ^ PHI) := by ring
    rw [this] at hexp
    linarith

/-- Witness for the amended claim C2: previous loss `5`, current loss `2`,
sample count `3`. -/
theorem C2_witness :
    (evaluateModel (CalcStateR.mk [] [("c", 5)]) "c" 2 3).1 = actualQualityC2 (some 5) 2 3 ∧
    lookupR "c" (evaluateModel (CalcStateR.mk [] [("c", 5)]) "c" 2 3).2.previousRoundMetricsR =
      some 2 :=
  C2_quality_formula_amended (CalcStateR.mk [] [("c", 5)]) "c" (some 5) 2 3
    (by norm_num) (by simp [lookupR])

/-- Claim C10: with a positive sample count, the quality of a strictly
positive loss argument (an improving client) is strictly negative, the
quality of a strictly negative loss argument (a worsening client) lies
strictly between 0 and 1, and hence every improving client scores strictly
below every worsening client. -/
theorem C10_quality_sign_separation :
    (∀ L N : ℝ, 0 < N → 0 < L → computeModelQuality L N < 0) ∧
    (∀ L N : ℝ, 0 < N → L < 0 →
        0 < computeModelQuality L N ∧ computeModelQuality L N < 1) ∧
    (∀ L₁ N₁ L₂ N₂ : ℝ, 0 < N₁ → 0 < N₂ → 0 < L₁ → L₂ < 0 →
        computeModelQuality L₁ N₁ < computeModelQuality L₂ N₂) := by
  have hneg : ∀ L N : ℝ, 0 < N → 0 < L → computeModelQuality L N < 0 := by
    intro L N hN hL
    rw [computeModelQuality_pos_branch L N hN hL]
    have hratio : 0 < |L| * N := mul_pos (abs_pos.mpr hL.ne') hN
    have hpow : 0 < (|L| * N) ^ PHI := Real.rpow_pos_of_pos hratio PHI
    have harg : 0 < THETA * (|L| * N) ^ PHI :=
      mul_pos (by norm_num [THETA]) hpow
    have := Real.one_lt_exp_iff.mpr harg
    linarith
  have hpos : ∀ L N : ℝ, 0 < N → L < 0 →
      0 < computeModelQuality L N ∧ computeModelQuality L N < 1 := by
    intro L N hN hL
    rw [computeModelQuality_nonpos_branch L N hN (not_lt.mpr hL.le)]
    have hratio : 0 < |L| * N := mul_pos (abs_pos.mpr hL.ne) hN
    have hpow : 0 < (|L| * N) ^ PHI := Real.rpow_pos_of_pos hratio PHI
    have harg : -THETA * (|L| * N) ^ PHI < 0 := by
      have : (0 : ℝ) < THETA := by norm_num [THETA]
      nlinarith
    have hlt1 := Real.exp_lt_one_iff.mpr harg
    have hpos' := Real.exp_pos (-THETA * (|L| * N) ^ PHI)
    constructor <;> linarith
  exact ⟨hneg, hpos, fun L₁ N₁ L₂ N₂ h₁ h₂ h₃ h₄ =>
    lt_trans (hneg L₁ N₁ h₁ h₃) (hpos L₂ N₂ h₂ h₄).1⟩

/-- Witness for claim C10: loss arguments `1` and `-1` with sample count `1`. -/
theorem C10_witness :
    computeModelQuality 1 1 < 0 ∧
    (0 < computeModelQuality (-1) 1 ∧ computeModelQuality (-1) 1 < 1) ∧
    computeModelQuality 1 1 < computeModelQuality (-1) 1 :=
  ⟨C10_quality_sign_separation.1 1 1 one_pos one_pos,
   C10_quality_sign_separation.2.1 (-1) 1 one_pos (by norm_num),
   C10_quality_sign_separation.2.2 1 1 (-1) 1 one_pos one_pos one_pos (by norm_num)⟩

theorem nodup_subset_length {l₁ l₂ : List String} (hnd : l₁.Nodup)
    (hsub : ∀ x ∈ l₁, x ∈ l₂) : l₁.length ≤ l₂.length := by
  calc l₁.length = l₁.toFinset.card := (List.toFinset_card_of_nodup hnd).symm
    _ ≤ l₂.toFinset.card := Finset.card_le_card (fun x hx =>
        List.mem_toFinset.mpr (hsub x (List.mem_toFinset.mp hx)))
    _ ≤ l₂.length := List.toFinset_card_le l₂

theorem subset_of_nodup_length_le {l₁ l₂ : List String} (hnd₁ : l₁.Nodup)
    (hnd₂ : l₂.Nodup) (hsub : ∀ x ∈ l₁, x ∈ l₂) (hlen : l₂.length ≤ l₁.length) :
    ∀ x ∈ l₂, x ∈ l₁ := by
  have hfin : l₁.toFinset ⊆ l₂.toFinset := fun x hx =>
    List.mem_toFinset.mpr (hsub x (List.mem_toFinset.mp hx))
  have hcard : l₂.toFinset.card ≤ l₁.toFinset.card := by
    rw [List.toFinset_card_of_nodup hnd₁, List.toFinset_card_of_nodup hnd₂]
    exact hlen
  have := Finset.eq_of_subset_of_card_le hfin hcard
  intro x hx
  exact List.mem_toFinset.mp (this ▸ List.mem_toFinset.mpr hx)

theorem setAllStatus_ids (st : ClientStatus) (cs : List ClientEntry) :
    (setAllStatus st cs).map ClientEntry.cid = cs.map ClientEntry.cid := by
  simp [setAllStatus]

theorem startNewRound_core (cfg : Config) (s : State) (h : InvCore cfg s) :
    InvCore cfg (startNewRound cfg s) := by
  obtain ⟨hnd, hcur, hrounds, htimers, hlog⟩ := h
  unfold startNewRound
  split
  · exact ⟨hnd, hcur, hrounds, htimers, hlog⟩
  · dsimp only
    split
    next hsync =>
      refine ⟨?_, ?_, hrounds, ?_, hlog⟩
      · show ((setAllStatus .training s.clients).map ClientEntry.cid).Nodup
        rw [setAllStatus_ids]
        exact hnd
      · intro r hr
        cases hr
        simp
      · intro tm htm hkind
        exact Nat.lt_succ_of_lt (htimers tm htm hkind)
    next hsync =>
      refine ⟨?_, ?_, hrounds, ?_, hlog⟩
      · show ((setAllStatus .training s.clients).map ClientEntry.cid).Nodup
        rw [setAllStatus_ids]
        exact hnd
      · intro r hr
        cases hr
        simp
      · intro tm htm hkind
        rcases List.mem_append.mp htm with hold | hnew
        · exact Nat.lt_succ_of_lt (htimers tm hold hkind)
        · exact Nat.lt_of_not_le hsync

theorem startNewRound_sub (cfg : Config) (s : State) (h : InvSub cfg s) :
    InvSub cfg (startNewRound cfg s) := by
  obtain ⟨hcur, hrounds, hlog⟩ := h
  unfold startNewRound
  split
  · exact ⟨hcur, hrounds, hlog⟩
  · dsimp only
    split <;>
    · refine ⟨?_, ?_, hlog⟩
      · intro r hr
        cases hr
        simp
      · intro r hr c hc
        show c ∈ (setAllStatus .training s.clients).map ClientEntry.cid
        rw [setAllStatus_ids]
        exact hrounds r hr c hc

theorem haveAll_counts (s : State) (r : RoundState) (hr : s.currentRound = some r)
    (h : haveAllClientsSubmitted s = true) :
    (r.submissions.map Prod.fst).length = (clientIds s).length := by
  unfold haveAllClientsSubmitted at h
  rw [hr] at h
  simp only [decide_eq_true_eq] at h
  simp [clientIds, h]

theorem performAggregation_core (cfg : Config) (s : State) (h : InvCore cfg s)
    (hctx : s.currentRoundNumber ≤ cfg.synchronousRounds → haveAllClientsSubmitted s = true) :
    InvCore cfg (performAggregation cfg s) := by
  obtain ⟨hnd, hcur, hrounds, htimers, hlog⟩ := h
  unfold performAggregation
  cases hr : s.currentRound with
  | none => exact ⟨hnd, hcur, hrounds, htimers, hlog⟩
  | some r =>
      dsimp only
      by_cases hagg : s.isAggregating
      · rw [if_pos hagg]
        exact ⟨hnd, hcur, hrounds, htimers, hlog⟩
      · rw [if_neg hagg]
        have hentry : s.currentRoundNumber ≤ cfg.synchronousRounds →
            (r.submissions.map Prod.fst).length = (clientIds s).length :=
          fun hs => haveAll_counts s r hr (hctx hs)
        split
        next e heq =>
          refine ⟨?_, ?_, ?_, ?_, ?_⟩
          · show (((calculateAndStoreRoundMeanTime _ _).clients).map ClientEntry.cid).Nodup
            rw [calc_clients]
            exact hnd
          · show ∀ r', (calculateAndStoreRoundMeanTime _ _).currentRound = some r' → _
            rw [calc_currentRound]
            intro r' hr'
            cases hr'
            exact hcur r hr
          · show ∀ r' ∈ (calculateAndStoreRoundMeanTime _ _).rounds, _
            rw [calc_rounds]
            exact hrounds
          · show ∀ tm ∈ (calculateAndStoreRoundMeanTime _ _).timers,
                tm.kind = TimerKind.deadline →
                cfg.synchronousRounds < (calculateAndStoreRoundMeanTime _ _).currentRoundNumber
            rw [calc_timers, calc_currentRoundNumber]
            exact htimers
          · show ∀ en ∈ (calculateAndStoreRoundMeanTime _ _).aggLog, _
            rw [calc_aggLog]
            intro en hen hsync
            rcases List.mem_append.mp hen with hold | hnew
            · exact hlog en hold hsync
            · rw [List.mem_singleton] at hnew
              subst hnew
              exact hentry hsync
        next agg heq =>
          refine ⟨?_, ?_, ?_, ?_, ?_⟩
          · show ((setAllStatus .idle (calculateAndStoreRoundMeanTime _ _).clients).map
                ClientEntry.cid).Nodup
            rw [setAllStatus_ids, calc_clients]
            exact hnd
          · intro r' hr'
            cases hr'
          · show ∀ r' ∈ (calculateAndStoreRoundMeanTime _ _).rounds ++ _, _
            rw [calc_rounds]
            intro r' hr'
            rcases List.mem_append.mp hr' with hold | hnew
            · exact hrounds r' hold
            · rw [List.mem_singleton] at hnew
              subst hnew
              exact hcur r hr
          · intro tm htm hkind
            dsimp only at htm ⊢
            rw [calc_currentRoundNumber]
            by_cases hlt : s.currentRoundNumber < cfg.totalRounds
            · rw [if_pos hlt, calc_timers] at htm
              dsimp only at htm
              rcases List.mem_append.mp htm with hold | hnew
              · exact htimers tm hold hkind
              · rw [List.mem_singleton] at hnew
                subst hnew
                simp at hkind
            · rw [if_neg hlt, calc_timers] at htm
              dsimp only at htm
              exact htimers tm htm hkind
          · show ∀ en ∈ (calculateAndStoreRoundMeanTime _ _).aggLog, _
            rw [calc_aggLog]
            intro en hen hsync
            rcases List.mem_append.mp hen with hold | hnew
            · exact hlog en hold hsync
            · rw [List.mem_singleton] at hnew
              subst hnew
              exact hentry hsync

theorem performAggregation_sub (cfg : Config) (s : State) (hc : InvCore cfg s)
    (h : InvSub cfg s)
    (hctx : s.currentRoundNumber ≤ cfg.synchronousRounds → haveAllClientsSubmitted s = true) :
    InvSub cfg (performAggregation cfg s) := by
  obtain ⟨hnd, hcurnd, _, _, _⟩ := hc
  obtain ⟨hcur, hrounds, hlog⟩ := h
  unfold performAggregation
  cases hr : s.currentRound with
  | none => exact ⟨hcur, hrounds, hlog⟩
  | some r =>
      dsimp only
      by_cases hagg : s.isAggregating
      · rw [if_pos hagg]
        exact ⟨hcur, hrounds, hlog⟩
      · rw [if_neg hagg]
        have hcover : s.currentRoundNumber ≤ cfg.synchronousRounds →
            ∀ c ∈ clientIds s, c ∈ r.submissions.map Prod.fst := by
          intro hs
          have hlen := haveAll_counts s r hr (hctx hs)
          exact subset_of_nodup_length_le (hcurnd r hr) hnd (hcur r hr) hlen.ge
        split
        next e heq =>
          refine ⟨?_, ?_, ?_⟩
          · show ∀ r', (calculateAndStoreRoundMeanTime _ _).currentRound = some r' → _
            rw [calc_currentRound]
            intro r' hr'
            cases hr'
            intro c hcm
            show c ∈ ((calculateAndStoreRoundMeanTime _ _).clients).map ClientEntry.cid
            rw [calc_clients]
            exact hcur r hr c hcm
          · show ∀ r' ∈ (calculateAndStoreRoundMeanTime _ _).rounds, _
            rw [calc_rounds]
            intro r' hr' c hcm
            show c ∈ ((calculateAndStoreRoundMeanTime _ _).clients).map ClientEntry.cid
            rw [calc_clients]
            exact hrounds r' hr' c hcm
          · show ∀ en ∈ (calculateAndStoreRoundMeanTime _ _).aggLog, _
            rw [calc_aggLog]
            intro en hen hsync
            rcases List.mem_append.mp hen with hold | hnew
            · exact hlog en hold hsync
            · rw [List.mem_singleton] at hnew
              subst hnew
              exact hcover hsync
        next agg heq =>
          refine ⟨?_, ?_, ?_⟩
          · intro r' hr'
            cases hr'
          · show ∀ r' ∈ (calculateAndStoreRoundMeanTime _ _).rounds ++ _, _
            rw [calc_rounds]
            intro r' hr' c hcm
            show c ∈ ((setAllStatus .idle (calculateAndStoreRoundMeanTime _ _).clients).map
                ClientEntry.cid)
            rw [setAllStatus_ids, calc_clients]
            rcases List.mem_append.mp hr' with hold | hnew
            · exact hrounds r' hold c hcm
            · rw [List.mem_singleton] at hnew
              subst hnew
              exact hcur r hr c hcm
          · show ∀ en ∈ (calculateAndStoreRoundMeanTime _ _).aggLog, _
            rw [calc_aggLog]
            intro en hen hsync
            rcases List.mem_append.mp hen with hold | hnew
            · exact hlog en hold hsync
            · rw [List.mem_singleton] at hnew
              subst hnew
              exact hcover hsync

theorem update_status_ids (cs : List ClientEntry) (cid : String) (t : ℚ) :
    (cs.map (fun c => if c.cid = cid
        then { c with status := ClientStatus.aggregating, lastUpdate := t } else c)).map
      ClientEntry.cid = cs.map ClientEntry.cid := by
  rw [List.map_map]
  refine List.map_congr_left (fun c _ => ?_)
  by_cases hc : c.cid = cid <;> simp [hc]

theorem append_singleton_nodup {l : List String} {a : String}
    (hnd : l.Nodup) (ha : a ∉ l) : (l ++ [a]).Nodup := by
  rw [List.nodup_append]
  exact ⟨hnd, List.nodup_singleton a, by simpa [List.disjoint_singleton] using ha⟩

theorem shouldStart_sync_haveAll (cfg : Config) (s : State)
    (h : shouldStartAggregation cfg s = true)
    (hs : s.currentRoundNumber ≤ cfg.synchronousRounds) :
    haveAllClientsSubmitted s = true := by
  unfold shouldStartAggregation at h
  rw [if_pos (by simpa [shouldUseSynchronousMode] using hs)] at h
  exact h

theorem submitStore_core (cfg : Config) (s : State) (cid : String) (w : Update)
    (nd l q tt cst : ℚ) (r : RoundState) (h : InvCore cfg s)
    (hr : s.currentRound = some r) (hdup : cid ∉ r.submissions.map Prod.fst) :
    InvCore cfg (submitStore s cid w nd l q tt cst r) := by
  obtain ⟨hnd, hcur, hrounds, htimers, hlog⟩ := h
  refine ⟨?_, ?_, hrounds, htimers, hlog⟩
  · show ((s.clients.map _).map ClientEntry.cid).Nodup
    rw [update_status_ids]
    exact hnd
  · intro r' hr'
    cases hr'
    simp only [List.map_append, List.map_cons, List.map_nil]
    exact append_singleton_nodup (hcur r hr) hdup

theorem submitStore_sub (cfg : Config) (s : State) (cid : String) (w : Update)
    (nd l q tt cst : ℚ) (r : RoundState) (h : InvSub cfg s)
    (hr : s.currentRound = some r) (hreg : cid ∈ clientIds s) :
    InvSub cfg (submitStore s cid w nd l q tt cst r) := by
  obtain ⟨hcur, hrounds, hlog⟩ := h
  refine ⟨?_, ?_, hlog⟩
  · intro r' hr'
    cases hr'
    intro c hc
    show c ∈ (s.clients.map _).map ClientEntry.cid
    rw [update_status_ids]
    simp only [List.map_append, List.map_cons, List.map_nil, List.mem_append,
      List.mem_singleton] at hc
    rcases hc with hold | hnew
    · exact hcur r hr c hold
    · exact hnew ▸ hreg
  · intro r' hr' c hc
    show c ∈ (s.clients.map _).map ClientEntry.cid
    rw [update_status_ids]
    exact hrounds r' hr' c hc

theorem submitStore_roundNumber (s : State) (cid : String) (w : Update)
    (nd l q tt cst : ℚ) (r : RoundState) :
    (submitStore s cid w nd l q tt cst r).currentRoundNumber = s.currentRoundNumber := rfl

theorem stepSubmit_core (cfg : Config) (s : State) (cid : String) (w : Update)
    (nd l q tt cst : ℚ) (h : InvCore cfg s) :
    InvCore cfg (stepSubmit cfg s cid w nd l q tt cst) := by
  unfold stepSubmit
  by_cases hreg : cid ∈ clientIds s
  · rw [if_pos hreg]
    cases hr : s.currentRound with
    | none => exact h
    | some r =>
        dsimp only
        by_cases hdup : cid ∈ r.submissions.map Prod.fst
        · rw [if_pos hdup]
          exact h
        · rw [if_neg hdup]
          have hs' := submitStore_core cfg s cid w nd l q tt cst r h hr hdup
          split
          next hstart =>
            refine performAggregation_core cfg _ hs' (fun hsync => ?_)
            exact shouldStart_sync_haveAll cfg _ hstart
              (by rw [submitStore_roundNumber] at hsync ⊢ ; exact hsync)
          next hnostart => exact hs'
  · rw [if_neg hreg]
    exact h

theorem stepSubmit_sub (cfg : Config) (s : State) (cid : String) (w : Update)
    (nd l q tt cst : ℚ) (hc : InvCore cfg s) (h : InvSub cfg s) :
    InvSub cfg (stepSubmit cfg s cid w nd l q tt cst) := by
  unfold stepSubmit
  by_cases hreg : cid ∈ clientIds s
  · rw [if_pos hreg]
    cases hr : s.currentRound with
    | none => exact h
    | some r =>
        dsimp only
        by_cases hdup : cid ∈ r.submissions.map Prod.fst
        · rw [if_pos hdup]
          exact h
        · rw [if_neg hdup]
          have hs' := submitStore_core cfg s cid w nd l q tt cst r hc hr hdup
          have hs'' := submitStore_sub cfg s cid w nd l q tt cst r h hr hreg
          split
          next hstart =>
            refine performAggregation_sub cfg _ hs' hs'' (fun hsync => ?_)
            exact shouldStart_sync_haveAll cfg _ hstart
              (by rw [submitStore_roundNumber] at hsync ⊢ ; exact hsync)
          next hnostart => exact hs''
  · rw [if_neg hreg]
    exact h

theorem stepRegister_core (cfg : Config) (s : State) (cid : String)
    (h : InvCore cfg s) : InvCore cfg (stepRegister cfg s cid) := by
  obtain ⟨hnd, hcur, hrounds, htimers, hlog⟩ := h
  unfold stepRegister
  by_cases hfull : cfg.requiredClients ≤ s.clients.length
  · rw [if_pos hfull]
    exact ⟨hnd, hcur, hrounds, htimers, hlog⟩
  · rw [if_neg hfull]
    by_cases hmem : cid ∈ clientIds s
    · rw [if_pos hmem]
      exact ⟨hnd, hcur, hrounds, htimers, hlog⟩
    · rw [if_neg hmem]
      have hs' : InvCore cfg
          { s with clients := s.clients ++ [{ cid := cid, status := .idle, lastUpdate := s.now }] } := by
        refine ⟨?_, hcur, hrounds, htimers, hlog⟩
        show ((s.clients ++ _).map ClientEntry.cid).Nodup
        simp only [List.map_append, List.map_cons, List.map_nil]
        exact append_singleton_nodup hnd hmem
      dsimp only
      split
      · exact startNewRound_core cfg _ hs'
      · exact hs'

theorem stepRegister_sub (cfg : Config) (s : State) (cid : String)
    (h : InvSub cfg s) : InvSub cfg (stepRegister cfg s cid) := by
  obtain ⟨hcur, hrounds, hlog⟩ := h
  unfold stepRegister
  by_cases hfull : cfg.requiredClients ≤ s.clients.length
  · rw [if_pos hfull]
    exact ⟨hcur, hrounds, hlog⟩
  · rw [if_neg hfull]
    by_cases hmem : cid ∈ clientIds s
    · rw [if_pos hmem]
      exact ⟨hcur, hrounds, hlog⟩
    · rw [if_neg hmem]
      have hs' : InvSub cfg
          { s with clients := s.clients ++ [{ cid := cid, status := .idle, lastUpdate := s.now }] } := by
        refine ⟨?_, ?_, hlog⟩
        · intro r hr c hc
          show c ∈ (s.clients ++ _).map ClientEntry.cid
          simp only [List.map_append, List.mem_append]
          exact Or.inl (hcur r hr c hc)
        · intro r hr c hc
          show c ∈ (s.clients ++ _).map ClientEntry.cid
          simp only [List.map_append, List.mem_append]
          exact Or.inl (hrounds r hr c hc)
      dsimp only
      split
      · exact startNewRound_sub cfg _ hs'
      · exact hs'

theorem stepPoll_core (cfg : Config) (s : State) (cid : String)
    (h : InvCore cfg s) : InvCore cfg (stepPoll cfg s cid) := by
  unfold stepPoll
  split
  · exact startNewRound_core cfg s h
  · exact h

theorem stepPoll_sub (cfg : Config) (s : State) (cid : String)
    (h : InvSub cfg s) : InvSub cfg (stepPoll cfg s cid) := by
  unfold stepPoll
  split
  · exact startNewRound_sub cfg s h
  · exact h

theorem stepDeregister_core (cfg : Config) (s : State) (cid : String)
    (h : InvCore cfg s) : InvCore cfg (stepDeregister s cid) := by
  obtain ⟨hnd, hcur, hrounds, htimers, hlog⟩ := h
  refine ⟨?_, hcur, hrounds, htimers, hlog⟩
  show ((s.clients.filter _).map ClientEntry.cid).Nodup
  exact List.Nodup.sublist ((List.filter_sublist s.clients).map ClientEntry.cid) hnd

theorem stepFireTimer_core (cfg : Config) (s : State) (i : ℕ)
    (h : InvCore cfg s) : InvCore cfg (stepFireTimer cfg s i) := by
  obtain ⟨hnd, hcur, hrounds, htimers, hlog⟩ := h
  unfold stepFireTimer
  cases hget : s.timers.get? i with
  | none => exact ⟨hnd, hcur, hrounds, htimers, hlog⟩
  | some tm =>
      dsimp only
      split
      · exact ⟨hnd, hcur, hrounds, htimers, hlog⟩
      · have hmem : tm ∈ s.timers := List.get?_mem hget
        have hs' : InvCore cfg { s with timers := s.timers.eraseIdx i } := by
          refine ⟨hnd, hcur, hrounds, ?_, hlog⟩
          intro tm' htm' hkind
          exact htimers tm' ((s.timers.eraseIdx_sublist i).mem htm') hkind
        cases hk : tm.kind with
        | deadline =>
            refine performAggregation_core cfg _ hs' (fun hsync => ?_)
            exact absurd (htimers tm hmem hk) (not_lt.mpr hsync)
        | nextRound => exact startNewRound_core cfg _ hs'

theorem stepFireTimer_sub (cfg : Config) (s : State) (i : ℕ)
    (hc : InvCore cfg s) (h : InvSub cfg s) : InvSub cfg (stepFireTimer cfg s i) := by
  obtain ⟨hnd, hcur, hrounds, htimers, hlog⟩ := hc
  obtain ⟨hscur, hsrounds, hslog⟩ := h
  unfold stepFireTimer
  cases hget : s.timers.get? i with
  | none => exact ⟨hscur, hsrounds, hslog⟩
  | some tm =>
      dsimp only
      split
      · exact ⟨hscur, hsrounds, hslog⟩
      · have hmem : tm ∈ s.timers := List.get?_mem hget
        have hs' : InvCore cfg { s with timers := s.timers.eraseIdx i } := by
          refine ⟨hnd, hcur, hrounds, ?_, hlog⟩
          intro tm' htm' hkind
          exact htimers tm' ((s.timers.eraseIdx_sublist i).mem htm') hkind
        have hs'' : InvSub cfg { s with timers := s.timers.eraseIdx i } :=
          ⟨hscur, hsrounds, hslog⟩
        cases hk : tm.kind with
        | deadline =>
            refine performAggregation_sub cfg _ hs' hs'' (fun hsync => ?_)
            exact absurd (htimers tm hmem hk) (not_lt.mpr hsync)
        | nextRound => exact startNewRound_sub cfg _ hs''

theorem step_core (cfg : Config) (s : State) (e : Event) (h : InvCore cfg s) :
    InvCore cfg (step cfg s e) := by
  cases e with
  | register cid t => exact stepRegister_core cfg (withTime s t) cid h
  | poll cid t => exact stepPoll_core cfg (withTime s t) cid h
  | submit cid w nd l q tt cst t => exact stepSubmit_core cfg (withTime s t) cid w nd l q tt cst h
  | deregister cid t => exact stepDeregister_core cfg (withTime s t) cid h
  | fireTimer i t => exact stepFireTimer_core cfg (withTime s t) i h

theorem step_sub (cfg : Config) (s : State) (e : Event)
    (hnd : ∀ cid t, e ≠ Event.deregister cid t)
    (hc : InvCore cfg s) (h : InvSub cfg s) : InvSub cfg (step cfg s e) := by
  cases e with
  | register cid t => exact stepRegister_sub cfg (withTime s t) cid h
  | poll cid t => exact stepPoll_sub cfg (withTime s t) cid h
  | submit cid w nd l q tt cst t => exact stepSubmit_sub cfg (withTime s t) cid w nd l q tt cst hc h
  | deregister cid t => exact absurd rfl (hnd cid t)
  | fireTimer i t => exact stepFireTimer_sub cfg (withTime s t) i hc h

theorem initState_core (cfg : Config) : InvCore cfg initState := by
  refine ⟨?_, ?_, ?_, ?_, ?_⟩
  · simp [clientIds, initState]
  · intro r hr
    cases hr
  · intro r hr
    cases hr
  · intro tm htm
    cases htm
  · intro en hen
    cases hen

theorem initState_sub (cfg : Config) : InvSub cfg initState := by
  refine ⟨?_, ?_, ?_⟩
  · intro r hr
    cases hr
  · intro r hr
    cases hr
  · intro en hen
    cases hen

theorem foldl_core (cfg : Config) :
    ∀ (evs : List Event) (s : State), InvCore cfg s →
      InvCore cfg (List.foldl (step cfg) s evs)
  | [], _, h => h
  | e :: evs, s, h => foldl_core cfg evs (step cfg s e) (step_core cfg s e h)

theorem run_core (cfg : Config) (evs : List Event) : InvCore cfg (run cfg evs) :=
  foldl_core cfg evs initState (initState_core cfg)

theorem foldl_sub (cfg : Config) :
    ∀ (evs : List Event) (s : State), noDeregister evs = true →
      InvCore cfg s → InvSub cfg s →
      InvSub cfg (List.foldl (step cfg) s evs)
  | [], s, _, _, h => h
  | e :: evs, s, hno, hc, h => by
      have hno' : noDeregister evs = true := by
        simp only [noDeregister, List.all_cons, Bool.and_eq_true] at hno
        exact hno.2
      have hnd : ∀ cid t, e ≠ Event.deregister cid t := by
        intro cid t he
        subst he
        simp [noDeregister] at hno
      exact foldl_sub cfg evs (step cfg s e) hno' (step_core cfg s e hc)
        (step_sub cfg s e hnd hc h)

theorem run_sub (cfg : Config) (evs : List Event) (hno : noDeregister evs = true) :
    InvSub cfg (run cfg evs) :=
  foldl_sub cfg evs initState hno (initState_core cfg) (initState_sub cfg)

theorem cid_ne_21 : ("c2" : String) ≠ "c1" := by decide

theorem cid_ne_12 : ("c1" : String) ≠ "c2" := by decide

theorem cid_ne_31 : ("c3" : String) ≠ "c1" := by decide

theorem cid_ne_13 : ("c1" : String) ≠ "c3" := by decide

theorem cid_ne_32 : ("c3" : String) ≠ "c2" := by decide

theorem cid_ne_23 : ("c2" : String) ≠ "c3" := by decide

/-- Claim C9 (amended): in every reachable state no client id appears twice
in the current or any archived round's submissions; and provided no client
is removed by the admin endpoint during the run, the number of entries in
any round's submissions map is at most the number of registered clients.
(With admin removal the bound fails — see the counterexample.) -/
theorem C9_submissions_invariant_amended (cfg : Config) (evs : List Event) :
    (∀ r, (run cfg evs).currentRound = some r → (r.submissions.map Prod.fst).Nodup) ∧
    (∀ r ∈ (run cfg evs).rounds, (r.submissions.map Prod.fst).Nodup) ∧
    (noDeregister evs = true →
      (∀ r, (run cfg evs).currentRound = some r →
        r.submissions.length ≤ (run cfg evs).clients.length) ∧
      (∀ r ∈ (run cfg evs).rounds, r.submissions.length ≤ (run cfg evs).clients.length)) := by
  obtain ⟨_, hcur, hrounds, _, _⟩ := run_core cfg evs
  refine ⟨hcur, hrounds, fun hno => ?_⟩
  obtain ⟨hscur, hsrounds, _⟩ := run_sub cfg evs hno
  constructor
  · intro r hr
    have h := nodup_subset_length (hcur r hr) (hscur r hr)
    simpa [clientIds] using h
  · intro r hr
    have h := nodup_subset_length (hrounds r hr) (hsrounds r hr)
    simpa [clientIds] using h

/-- Witness for the amended claim C9, on a concrete two-client run with one
submission: the bound and the no-duplicates property hold there. -/
theorem C9_witness :
    (run cfgTwo evsTwoW).currentRound =
      some { roundId := 1, submissions := [("c1", uEx)], aggregated := none, completed := false } ∧
    ([("c1", uEx)].map Prod.fst).Nodup ∧
    [("c1", uEx)].length ≤ (run cfgTwo evsTwoW).clients.length := by
  have hcr : (run cfgTwo evsTwoW).currentRound =
      some { roundId := 1, submissions := [("c1", uEx)], aggregated := none, completed := false } := by
    norm_num [run, cfgTwo, evsTwoW, uEx, step, withTime, stepRegister, stepPoll, stepSubmit,
      submitStore, stepFireTimer, stepDeregister, startNewRound, performAggregation, initState,
      clientIds, shouldStartAggregation, shouldUseSynchronousMode, haveAllClientsSubmitted,
      hasDeadlinePassed, calculateAndStoreRoundMeanTime, selectedSubmissions,
      getSelectedClients, meanQuality, lookupA, setA, setMetric, setRoundMean,
      setAllStatus, federatedAveragingAll, addClient, addLayerTo, addTensors, addData,
      mkTemplate, hasNonemptyTensor, List.filterMap_cons, max_def, min_def, except_ok_bind,
      cid_ne_21, cid_ne_12, cid_ne_31, cid_ne_13, cid_ne_32, cid_ne_23]
  refine ⟨hcr, ?_, ?_⟩
  · exact (C9_submissions_invariant_amended cfgTwo evsTwoW).1 _ hcr
  · exact ((C9_submissions_invariant_amended cfgTwo evsTwoW).2.2 rfl).1 _ hcr

/-- Claim C9 (counterexample): after `c1` submits and is removed by
`DELETE /clients/:clientId`, `c2`'s submission leaves the round with two
stored submissions while only one client is registered — the claimed bound
`|submissions| ≤ |registered clients|` fails in this reachable state. -/
theorem C9_counterexample :
    (run cfgTwo evsTwoX).currentRound.map (fun r => r.submissions.length) = some 2 ∧
    (run cfgTwo evsTwoX).clients.length = 1 ∧
    ¬ (2 : ℕ) ≤ 1 := by
  refine ⟨?_, ?_, by omega⟩ <;>
    norm_num [run, cfgTwo, evsTwoX, uEx, step, withTime, stepRegister, stepPoll, stepSubmit,
      submitStore, stepFireTimer, stepDeregister, startNewRound, performAggregation, initState,
      clientIds, shouldStartAggregation, shouldUseSynchronousMode, haveAllClientsSubmitted,
      hasDeadlinePassed, calculateAndStoreRoundMeanTime, selectedSubmissions,
      getSelectedClients, meanQuality, lookupA, setA, setMetric, setRoundMean,
      setAllStatus, federatedAveragingAll, addClient, addLayerTo, addTensors, addData,
      mkTemplate, hasNonemptyTensor, List.filterMap_cons, max_def, min_def, except_ok_bind,
      cid_ne_21, cid_ne_12, cid_ne_31, cid_ne_13, cid_ne_32, cid_ne_23]

/-- Claim C7 (amended): in synchronous mode no deadline timer is ever
pending, so aggregation can only be triggered by a submission; every
aggregation started in a synchronous round saw the submission count equal
the registry count; and provided no client was removed by the admin
endpoint, that means every registered client had submitted.  (With admin
removal mid-round the count comparison can succeed while a registered
client is missing — see the counterexample.) -/
theorem C7_sync_aggregation_amended (cfg : Config) (evs : List Event) :
    ((run cfg evs).currentRoundNumber ≤ cfg.synchronousRounds →
      ∀ tm ∈ (run cfg evs).timers, tm.kind = TimerKind.nextRound) ∧
    (∀ en ∈ (run cfg evs).aggLog, en.round ≤ cfg.synchronousRounds →
      en.submitted.length = en.registered.length) ∧
    (noDeregister evs = true →
      ∀ en ∈ (run cfg evs).aggLog, en.round ≤ cfg.synchronousRounds →
      ∀ c ∈ en.registered, c ∈ en.submitted) := by
  obtain ⟨_, _, _, htimers, hlog⟩ := run_core cfg evs
  refine ⟨fun hsync tm htm => ?_, hlog, fun hno => (run_sub cfg evs hno).2.2⟩
  cases hk : tm.kind with
  | deadline => exact absurd (htimers tm htm hk) (not_lt.mpr hsync)
  | nextRound => rfl

/-- Witness for the amended claim C7: in the one-client synchronous run the
logged aggregation covers the whole registry. -/
theorem C7_witness :
    (run cfgOne evsOne).aggLog =
      [{ round := 1, submitted := ["c"], registered := ["c"] }] ∧
    "c" ∈ (["c"] : List String) := by
  have hlog : (run cfgOne evsOne).aggLog =
      [{ round := 1, submitted := ["c"], registered := ["c"] }] := by
    norm_num [run, cfgOne, evsOne, uEx, step, withTime, stepRegister, stepPoll, stepSubmit,
      submitStore, stepFireTimer, stepDeregister, startNewRound, performAggregation, initState,
      clientIds, shouldStartAggregation, shouldUseSynchronousMode, haveAllClientsSubmitted,
      hasDeadlinePassed, calculateAndStoreRoundMeanTime, selectedSubmissions,
      getSelectedClients, meanQuality, lookupA, setA, setMetric, setRoundMean,
      setAllStatus, federatedAveragingAll, addClient, addLayerTo, addTensors, addData,
      mkTemplate, hasNonemptyTensor, List.filterMap_cons, max_def, min_def, except_ok_bind,
      cid_ne_21, cid_ne_12, cid_ne_31, cid_ne_13, cid_ne_32, cid_ne_23]
  refine ⟨hlog, ?_⟩
  exact (C7_sync_aggregation_amended cfgOne evsOne).2.2 rfl
    { round := 1, submitted := ["c"], registered := ["c"] }
    (hlog ▸ List.mem_singleton_self _) (by norm_num [cfgOne]) "c" (by simp)

/-- Claim C7 (counterexample): in synchronous round 1 of a three-client run,
after `c1` submits and is removed, `c2`'s submission triggers aggregation
(2 submissions = 2 registered clients) although registered client `c3` has
no entry in the round's submissions map. -/
theorem C7_counterexample :
    1 ≤ cfgThree.synchronousRounds ∧
    (run cfgThree evsThreeX).aggLog =
      [{ round := 1, submitted := ["c1", "c2"], registered := ["c2", "c3"] }] ∧
    "c3" ∈ (["c2", "c3"] : List String) ∧
    "c3" ∉ (["c1", "c2"] : List String) := by
  refine ⟨by norm_num [cfgThree], ?_, by simp, by simp⟩
  norm_num [run, cfgThree, evsThreeX, uEx, step, withTime, stepRegister, stepPoll, stepSubmit,
    submitStore, stepFireTimer, stepDeregister, startNewRound, performAggregation, initState,
    clientIds, shouldStartAggregation, shouldUseSynchronousMode, haveAllClientsSubmitted,
    hasDeadlinePassed, calculateAndStoreRoundMeanTime, selectedSubmissions,
    getSelectedClients, meanQuality, lookupA, setA, setMetric, setRoundMean,
    setAllStatus, federatedAveragingAll, addClient, addLayerTo, addTensors, addData,
    mkTemplate, hasNonemptyTensor, List.filterMap_cons, max_def, min_def, except_ok_bind,
    cid_ne_21, cid_ne_12, cid_ne_31, cid_ne_13, cid_ne_32, cid_ne_23]

theorem min_max_clamp_le (m : ℚ) : min 60000 (max 10000 m) ≤ max 10000 (min 60000 m) := by
  rcases le_total m 10000 with h1 | h1
  · rw [max_eq_left h1]
    rw [show min (60000 : ℚ) 10000 = 10000 by norm_num [min_def]]
    exact le_max_left _ _
  · rw [max_eq_right h1]
    exact le_max_right _ _

/-- Claim C8 (amended): when an asynchronous round starts, the armed
deadline is `roundStartTime + max 10000 (min 60000 d)` where `d` is
`overallMeanTime` if that value is nonzero and 30 000 ms otherwise — the
default applies whenever `overallMeanTime` is zero (`overallMeanTime ||
30000`), which includes a *computed* zero mean, not only "no mean computed
yet".  The armed delay is in any case at least
`min 60000 (max 10000 overallMeanTime)`, so forced aggregation occurs no
earlier than that bound after round start. -/
theorem C8_deadline_arming_amended (cfg : Config) (s : State)
    (hnoround : s.currentRound = none)
    (hclients : ¬ s.clients.length < cfg.requiredClients)
    (hrounds : ¬ cfg.totalRounds ≤ s.currentRoundNumber)
    (hagg : s.isAggregating = false)
    (hasync : cfg.synchronousRounds < s.currentRoundNumber + 1) :
    (startNewRound cfg s).roundDeadline =
      some (s.now + max 10000 (min 60000
        (if s.overallMeanTime = 0 then 30000 else s.overallMeanTime))) ∧
    s.now + min 60000 (max 10000 s.overallMeanTime) ≤
      s.now + max 10000 (min 60000
        (if s.overallMeanTime = 0 then 30000 else s.overallMeanTime)) := by
  constructor
  · unfold startNewRound
    rw [if_neg (by
      push_neg
      refine ⟨by simp [hnoround], not_lt.mp hclients, not_le.mp hrounds, by simp [hagg]⟩)]
    dsimp only
    rw [if_neg (not_le.mpr hasync)]
  · by_cases h0 : s.overallMeanTime = 0
    · rw [if_pos h0, h0]
      have h1 : max (10000 : ℚ) 0 = 10000 := by norm_num [max_def]
      have h2 : max (10000 : ℚ) (min 60000 30000) = 30000 := by norm_num [min_def, max_def]
      have h3 : min (60000 : ℚ) 10000 = 10000 := by norm_num [min_def]
      rw [h2, h1, h3]
      norm_num
    · rw [if_neg h0]
      exact add_le_add_left (min_max_clamp_le s.overallMeanTime) s.now

/-- Witness for the amended claim C8: a fresh one-client server with no
synchronous rounds arms the 30 000 ms default on round 1. -/
theorem C8_witness :
    (startNewRound cfgAsyncW sAsyncW).roundDeadline =
      some (sAsyncW.now + max 10000 (min 60000
        (if sAsyncW.overallMeanTime = 0 then 30000 else sAsyncW.overallMeanTime))) ∧
    sAsyncW.now + min 60000 (max 10000 sAsyncW.overallMeanTime) ≤
      sAsyncW.now + max 10000 (min 60000
        (if sAsyncW.overallMeanTime = 0 then 30000 else sAsyncW.overallMeanTime)) :=
  C8_deadline_arming_amended cfgAsyncW sAsyncW rfl (by decide) (by decide) rfl (by decide)

/-- Claim C8 (counterexample): a reachable state in which a round mean *has*
been computed (`roundMeanTimes = [(1, 0)]`, `overallMeanTime = 0` because
the sole client reported a zero round time) and the asynchronous round 2
starts at 1005: the armed deadline is `1005 + 30000`, not the claimed
`roundStartTime + clamp(overallMeanTime) = 1005 + 10000`. -/
theorem C8_counterexample :
    (run cfgOne evsAsyncX).roundMeanTimes = [(1, 0)] ∧
    (run cfgOne evsAsyncX).overallMeanTime = 0 ∧
    (run cfgOne evsAsyncX).roundStartTime = some 1005 ∧
    (run cfgOne evsAsyncX).roundDeadline = some 31005 ∧
    specClaimDeadline (!(run cfgOne evsAsyncX).roundMeanTimes.isEmpty)
        (run cfgOne evsAsyncX).overallMeanTime 1005 = 11005 ∧
    (run cfgOne evsAsyncX).roundDeadline ≠
      some (specClaimDeadline (!(run cfgOne evsAsyncX).roundMeanTimes.isEmpty)
        (run cfgOne evsAsyncX).overallMeanTime 1005) := by
  have h1 : (run cfgOne evsAsyncX).roundMeanTimes = [(1, 0)] := by
    norm_num [run, cfgOne, evsAsyncX, uEx, step, withTime, stepRegister, stepPoll, stepSubmit,
      submitStore, stepFireTimer, stepDeregister, startNewRound, performAggregation, initState,
      clientIds, shouldStartAggregation, shouldUseSynchronousMode, haveAllClientsSubmitted,
      hasDeadlinePassed, calculateAndStoreRoundMeanTime, selectedSubmissions,
      getSelectedClients, meanQuality, lookupA, setA, setMetric, setRoundMean,
      setAllStatus, federatedAveragingAll, addClient, addLayerTo, addTensors, addData,
      mkTemplate, hasNonemptyTensor, List.filterMap_cons, max_def, min_def, except_ok_bind]
  have h2 : (run cfgOne evsAsyncX).overallMeanTime = 0 := by
    norm_num [run, cfgOne, evsAsyncX, uEx, step, withTime, stepRegister, stepPoll, stepSubmit,
      submitStore, stepFireTimer, stepDeregister, startNewRound, performAggregation, initState,
      clientIds, shouldStartAggregation, shouldUseSynchronousMode, haveAllClientsSubmitted,
      hasDeadlinePassed, calculateAndStoreRoundMeanTime, selectedSubmissions,
      getSelectedClients, meanQuality, lookupA, setA, setMetric, setRoundMean,
      setAllStatus, federatedAveragingAll, addClient, addLayerTo, addTensors, addData,
      mkTemplate, hasNonemptyTensor, List.filterMap_cons, max_def, min_def, except_ok_bind]
  have h3 : (run cfgOne evsAsyncX).roundStartTime = some 1005 := by
    norm_num [run, cfgOne, evsAsyncX, uEx, step, withTime, stepRegister, stepPoll, stepSubmit,
      submitStore, stepFireTimer, stepDeregister, startNewRound, performAggregation, initState,
      clientIds, shouldStartAggregation, shouldUseSynchronousMode, haveAllClientsSubmitted,
      hasDeadlinePassed, calculateAndStoreRoundMeanTime, selectedSubmissions,
      getSelectedClients, meanQuality, lookupA, setA, setMetric, setRoundMean,
      setAllStatus, federatedAveragingAll, addClient, addLayerTo, addTensors, addData,
      mkTemplate, hasNonemptyTensor, List.filterMap_cons, max_def, min_def, except_ok_bind]
  have h4 : (run cfgOne evsAsyncX).roundDeadline = some 31005 := by
    norm_num [run, cfgOne, evsAsyncX, uEx, step, withTime, stepRegister, stepPoll, stepSubmit,
      submitStore, stepFireTimer, stepDeregister, startNewRound, performAggregation, initState,
      clientIds, shouldStartAggregation, shouldUseSynchronousMode, haveAllClientsSubmitted,
      hasDeadlinePassed, calculateAndStoreRoundMeanTime, selectedSubmissions,
      getSelectedClients, meanQuality, lookupA, setA, setMetric, setRoundMean,
      setAllStatus, federatedAveragingAll, addClient, addLayerTo, addTensors, addData,
      mkTemplate, hasNonemptyTensor, List.filterMap_cons, max_def, min_def, except_ok_bind]
  have h5 : specClaimDeadline (!(run cfgOne evsAsyncX).roundMeanTimes.isEmpty)
      (run cfgOne evsAsyncX).overallMeanTime 1005 = 11005 := by
    rw [h1, h2]
    norm_num [specClaimDeadline, min_def, max_def]
  refine ⟨h1, h2, h3, h4, h5, ?_⟩
  rw [h4, h5]
  intro h
  have := Option.some.inj h
  norm_num at this
